import Mathlib

/-!
The document-to-session compiler and group lifecycle reactor of mdnsserve.

A shallow embedding of `src/mdnsserve/mdnsserve.c`.

* A YAML document is the node array that libyaml builds (`yaml_document_t`), nodes refer
  to each other by 1-based index, and `yaml_document_get_node` yields `none` for the C
  `NULL`.  A scalar keeps the two fields the C code reads: `value`, the C string that
  `strcmp`, `inet_pton`, `strtonum` and the `%s` conversions see, and `length`, the byte
  count that the emptiness and length tests see (the two differ only for a scalar with
  an embedded null byte).
* A C function that may call `log_fatal`/`log_fatalx` returns an `Exit` together with
  the list of events it produced: calls into libmdns (with their return value) and
  calls of the logging functions (kept as format string and argument list).
* libmdns (`mdns.h`) is a library outside the sources. Its return values are given by a
  `Lib` record; the calls that take the session handle may depend on everything that
  happened before (the trace so far).
* `strtonum(3)` and `strtoll(3)` are libc functions and are modelled as documented;
  `inet_pton`, `inet_ntop` and the `MDNS_GROUP_*` constants of `mdns.h` are parameters
  (`Env`).
* `main` is embedded from the declaration of the session handle on: the loop over the
  documents of the stream (`main_load`), the privilege drop, whose system calls are a
  parameter (`Sys`), and the terminal loop (`main_read`), which takes a bound on the
  number of its iterations.
-/

namespace Mdnsserve

/-! ## libyaml data model -/

/-- The `line` and `column` of libyaml's `yaml_mark_t`. -/
structure yaml_mark_t where
  line : Nat
  column : Nat
deriving DecidableEq, Repr

/-- A pair of node indices, libyaml's `yaml_node_pair_t`. -/
structure yaml_node_pair_t where
  key : Int
  value : Int
deriving DecidableEq, Repr

/-- The `data` union of `yaml_node_t`, tagged by the node type. -/
inductive yaml_node_data where
  | no_node
  | scalar (value : String) (length : Nat)
  | sequence (items : List Int)
  | mapping (pairs : List yaml_node_pair_t)
deriving DecidableEq, Repr

/-- A document node, libyaml's `yaml_node_t` (the fields mdnsserve reads). -/
structure yaml_node_t where
  data : yaml_node_data
  start_mark : yaml_mark_t
deriving DecidableEq, Repr

/-- The numeric value of `yaml_node_type_t`, as printed by `%d`. -/
def yaml_node_t.type (n : yaml_node_t) : Int :=
  match n.data with
  | .no_node => 0
  | .scalar _ _ => 1
  | .sequence _ => 2
  | .mapping _ => 3

/-- A document is its node array, `nodes.start .. nodes.top`. -/
abbrev yaml_document_t := List yaml_node_t

/-- The libyaml accessor `yaml_document_get_node`: node `index` (1-based) or `NULL`. -/
def yaml_document_get_node (document : yaml_document_t) (index : Int) : Option yaml_node_t :=
  if 0 < index ∧ index ≤ (document.length : Int) then document.get? (index - 1).toNat else none

/-- The libyaml accessor `yaml_document_get_root_node`: the first node or `NULL`. -/
def yaml_document_get_root_node (document : yaml_document_t) : Option yaml_node_t :=
  document.head?

/-- The value of a node that passes the test
`type == YAML_SCALAR_NODE && data.scalar.length != 0`, and `none` for a node that fails it. -/
def nonempty_scalar (n : yaml_node_t) : Option String :=
  match n.data with
  | .scalar value length => if length = 0 then none else some value
  | _ => none

/-! ## libc -/

/-- An IPv4 address, `struct in_addr`. -/
structure in_addr where
  s_addr : Nat
deriving DecidableEq, Repr

def LLONG_MAX : Int := 9223372036854775807
def LLONG_MIN : Int := -9223372036854775808
def UINT16_MAX : Int := 65535

/-- The C locale `isspace`. -/
def isspace (c : Char) : Bool :=
  c = ' ' || c = '\t' || c = '\n' || c = '\x0b' || c = '\x0c' || c = '\r'

/-- The decimal digits at the head of a string: their value and what follows them. -/
def strtoll_digits : List Char → Nat → Nat × List Char
  | [], acc => (acc, [])
  | c :: cs, acc =>
    if c.isDigit then strtoll_digits cs (acc * 10 + (c.toNat - 48)) else (acc, c :: cs)

/-- What `strtoll(nptr, &ep, 10)` reports: the value, whether any digit was converted
(`ep != nptr`), the characters at `ep`, and whether `errno` was set to `ERANGE`. -/
structure strtoll_result where
  value : Int
  converted : Bool
  rest : List Char
  erange : Bool
deriving DecidableEq, Repr

/-- The libc `strtoll` in base 10: white space, an optional sign, decimal digits; the
value is clamped to `long long` with `ERANGE`. -/
def strtoll (nptr : List Char) : strtoll_result :=
  let s := nptr.dropWhile isspace
  let signed : Bool × List Char :=
    match s with
    | '-' :: r => (true, r)
    | '+' :: r => (false, r)
    | _ => (false, s)
  match signed.2 with
  | [] => ⟨0, false, nptr, false⟩
  | c :: _ =>
    if c.isDigit then
      let d := strtoll_digits signed.2 0
      let v : Int := if signed.1 then -(d.1 : Int) else (d.1 : Int)
      if LLONG_MAX < v then ⟨LLONG_MAX, true, d.2, true⟩
      else if v < LLONG_MIN then ⟨LLONG_MIN, true, d.2, true⟩
      else ⟨v, true, d.2, false⟩
    else ⟨0, false, nptr, false⟩

/-- The libc `strtonum(numstr, minval, maxval, &errstr)`: `.ok` carries the number (and
`errstr` stays `NULL`), `.error` carries `errstr` (and the function returns 0). -/
def strtonum (numstr : String) (minval maxval : Int) : Except String Int :=
  if maxval < minval then .error "invalid"
  else
    let r := strtoll numstr.toList
    if !r.converted || r.rest ≠ [] then .error "invalid"
    else if (r.value = LLONG_MIN ∧ r.erange) ∨ r.value < minval then .error "too small"
    else if (r.value = LLONG_MAX ∧ r.erange) ∨ maxval < r.value then .error "too large"
    else .ok r.value

/-- Parameters of the embedding that come from headers outside the sources: the
libc address conversions and the event codes of `mdns.h`. `inet_pton s = some a` stands
for `inet_pton(AF_INET, s, &addr) == 1` with `a` stored in `addr`. -/
structure Env where
  inet_pton : String → Option in_addr
  inet_ntop : in_addr → String
  MDNS_GROUP_ERR_COLLISION : Int
  MDNS_GROUP_ERR_NOT_FOUND : Int
  MDNS_GROUP_ERR_DOUBLE_ADD : Int
  MDNS_GROUP_PROBING : Int
  MDNS_GROUP_ANNOUNCING : Int
  MDNS_GROUP_PUBLISHED : Int

/-- The constant `MAXHOSTNAMELEN` of `sys/param.h`: 256 characters including the null
byte, as `mdnsd.h` documents it. -/
def MAXHOSTNAMELEN : Nat := 256

/-! ## libmdns and the trace of a run -/

/-- The arguments `mdns_service_init` stores in a `struct mdns_service`. -/
structure mdns_service where
  group : String
  service : String
  protocol : String
  port : Int
  text : String
  hostname : Option String
  address : Option in_addr
deriving DecidableEq, Repr

/-- A call into libmdns that takes the session handle. -/
inductive Call where
  | mdns_open
  | mdns_set_group_hook
  | mdns_group_add (group : String)
  | mdns_group_add_service (group : String) (ms : mdns_service)
  | mdns_group_commit (group : String)
  | mdns_read
deriving DecidableEq, Repr

/-- The logging functions of `log.h`; `log_fatal` and `log_fatalx` do not return. -/
inductive LogFn where
  | log_fatal | log_fatalx | log_warn | log_warnx | log_notice | log_debug
deriving DecidableEq, Repr

/-- An argument of a logging call; `null` is a `NULL` string pointer. -/
inductive LogArg where
  | int (n : Int)
  | str (s : String)
  | null
deriving DecidableEq, Repr

/-- What a run does, in order. -/
inductive Event where
  | call (c : Call) (ret : Int)
  | log (fn : LogFn) (fmt : String) (args : List LogArg)
  | log_init (debug : Int)
  | daemon
deriving DecidableEq, Repr

/-- The return values of libmdns. `mdns_service_init` only fills the descriptor; the
other functions talk to the daemon, so their result may depend on the trace so far.
`mdns_read_events` lists the group events (code and group name) for which `mdns_read`
invokes the group hook before it returns. -/
structure Lib where
  mdns_service_init : mdns_service → Int
  mdns_open : List Event → Int
  mdns_group_add : List Event → String → Int
  mdns_group_add_service : List Event → String → mdns_service → Int
  mdns_group_commit : List Event → String → Int
  mdns_read : List Event → Int
  mdns_read_events : List Event → List (Int × String) := fun _ => []

/-- How a C function ends: it returns, or the process exits inside it. -/
inductive Exit where
  | returned
  | exited
deriving DecidableEq, Repr

/-- The outcome of one pass through a loop body: go on with the next iteration,
`return` after a diagnostic, or exit the process after a diagnostic. -/
inductive Step (α : Type) where
  | next (a : α)
  | stop (e : Event)
  | die (e : Event)
deriving DecidableEq, Repr

/-! ## add_service -/

/-- The local variables of `add_service`, with their initial values. -/
structure service_vars where
  service : Option String := none
  protocol : Option String := none
  hostname : Option String := none
  address : Option in_addr := none
  port : Int := 0
  text : String := ""
deriving DecidableEq, Repr

/-- The body of the loop over the pairs of a service mapping; `i` is the 1-based
position of the pair. -/
def add_service_pair (env : Env) (group : String) (index : Int) (document : yaml_document_t)
    (i : Int) (pair : yaml_node_pair_t) (v : service_vars) : Step service_vars :=
  match yaml_document_get_node document pair.key with
  | none =>
    .die (.log .log_fatalx "invalid node index %d for key %d in item %d of group '%s'"
      [.int pair.key, .int i, .int index, .str group])
  | some key =>
    match yaml_document_get_node document pair.value with
    | none =>
      .die (.log .log_fatalx "invalid node index %d for value %d in item %d of group '%s'"
        [.int pair.value, .int i, .int index, .str group])
    | some value =>
      match nonempty_scalar key with
      | none =>
        .stop (.log .log_warnx
          "expecting scalar for key %d in item %d of group '%s' (line %d column %d), got type %d, ignoring service"
          [.int i, .int index, .str group, .int key.start_mark.line,
            .int key.start_mark.column, .int key.type])
      | some k =>
        match nonempty_scalar value with
        | none =>
          .stop (.log .log_warnx
            "expecting scalar for value %d in item %d of group '%s' (line %d column %d), got type %d, ignoring service"
            [.int i, .int index, .str group, .int value.start_mark.line,
              .int value.start_mark.column, .int value.type])
        | some x =>
          if k = "service" then .next { v with service := some x }
          else if k = "protocol" then .next { v with protocol := some x }
          else if k = "hostname" then .next { v with hostname := some x }
          else if k = "address" then
            match env.inet_pton x with
            | none =>
              .stop (.log .log_warn "invalid address '%s' for item %d of group '%s', ignoring service"
                [.str x, .int index, .str group])
            | some addr => .next { v with address := some addr }
          else if k = "port" then
            match strtonum x 0 UINT16_MAX with
            | .error errstr =>
              .stop (.log .log_warnx
                "invalid port '%s' (%s) for item %d of group '%s', ignoring service"
                [.str x, .str errstr, .int index, .str group])
            | .ok port => .next { v with port := port }
          else if k = "text" then .next { v with text := x }
          else .next v

/-- The loop over the pairs of a service mapping, from pair number `i` on. -/
def add_service_pairs (env : Env) (group : String) (index : Int) (document : yaml_document_t) :
    Int → List yaml_node_pair_t → service_vars → Step service_vars
  | _, [], v => .next v
  | i, pair :: rest, v =>
    match add_service_pair env group index document i pair v with
    | .next w => add_service_pairs env group index document (i + 1) rest w
    | .stop e => .stop e
    | .die e => .die e

/-- The first part of `add_service`, up to the test of `hostname` against `address`: the
arguments for `mdns_service_init` when the node passes every test, else the diagnostic.
`item` is `yaml_document_get_node(document, *i)`. -/
def add_service_check (env : Env) (group : String) (index : Int)
    (document : yaml_document_t) (item : Option yaml_node_t) : Step mdns_service :=
  match item with
  | none =>
    .die (.log .log_fatalx "invalid node index for item %d of group '%s'"
      [.int index, .str group])
  | some item =>
    match item.data with
    | .mapping pairs =>
      match add_service_pairs env group index document 1 pairs {} with
      | .die e => .die e
      | .stop e => .stop e
      | .next v =>
        match v.service with
        | none =>
          .stop (.log .log_warnx "missing 'service' in item %d of group '%s', ignoring service"
            [.int index, .str group])
        | some service =>
          match v.protocol with
          | none =>
            .stop (.log .log_warnx
              "invalid protocol '%s' in item %d of group '%s', ignoring service"
              [.null, .int index, .str group])
          | some protocol =>
            if protocol ≠ "tcp" ∧ protocol ≠ "udp" then
              .stop (.log .log_warnx
                "invalid protocol '%s' in item %d of group '%s', ignoring service"
                [.str protocol, .int index, .str group])
            else if v.hostname.isSome != v.address.isSome then
              .stop (.log .log_warnx
                "'hostname' and 'address' must be both empty or valid in item %d of group '%s', ignoring service"
                [.int index, .str group])
            else .next ⟨group, service, protocol, v.port, v.text, v.hostname, v.address⟩
    | _ =>
      .stop (.log .log_warnx
        "expecting a map for item %d of group '%s' (line %d column %d), got type %d, ignoring service"
        [.int index, .str group, .int item.start_mark.line, .int item.start_mark.column,
          .int item.type])

/-- The function `add_service`: the tests of `add_service_check`, then `mdns_service_init`,
`mdns_group_add_service` and the notice. `tr` is the trace before the call; the result
is how the function ends and the events it adds. -/
def add_service (env : Env) (lib : Lib) (group : String) (index : Int)
    (document : yaml_document_t) (item : Option yaml_node_t) (tr : List Event) :
    Exit × List Event :=
  match add_service_check env group index document item with
  | .die e => (.exited, [e])
  | .stop e => (.returned, [e])
  | .next ms =>
    if lib.mdns_service_init ms = -1 then
      (.returned, [.log .log_warnx "failed to initialise _%s._%s for group '%s'"
        [.str ms.service, .str ms.protocol, .str group]])
    else
      let r := lib.mdns_group_add_service tr group ms
      if r = -1 then
        (.returned, [.call (.mdns_group_add_service group ms) r,
          .log .log_warnx "failed to add service _%s._%s to group '%s'"
            [.str ms.service, .str ms.protocol, .str group]])
      else
        match ms.hostname, ms.address with
        | some hostname, some address =>
          (.returned, [.call (.mdns_group_add_service group ms) r,
            .log .log_notice
              "added _%s._%s on host %s (%s) port %d with text '%s' to group '%s'"
              [.str ms.service, .str ms.protocol, .str hostname,
                .str (env.inet_ntop address), .int ms.port, .str ms.text, .str group]])
        | _, _ =>
          (.returned, [.call (.mdns_group_add_service group ms) r,
            .log .log_notice "added _%s._%s on port %d with text '%s' to group '%s'"
              [.str ms.service, .str ms.protocol, .int ms.port, .str ms.text, .str group]])

/-! ## add_group -/

/-- The loop of `add_group` over the items of the sequence, from item number `i` on. -/
def add_service_items (env : Env) (lib : Lib) (group : String) (document : yaml_document_t) :
    Int → List Int → List Event → Exit × List Event
  | _, [], _ => (.returned, [])
  | i, item :: rest, tr =>
    match add_service env lib group i document (yaml_document_get_node document item) tr with
    | (.exited, evs) => (.exited, evs)
    | (.returned, evs) =>
      let r := add_service_items env lib group document (i + 1) rest (tr ++ evs)
      (r.1, evs ++ r.2)

/-- The function `add_group` for entry number `index` of the root mapping. -/
def add_group (env : Env) (lib : Lib) (index : Int) (document : yaml_document_t)
    (pair : yaml_node_pair_t) (tr : List Event) : Exit × List Event :=
  match yaml_document_get_node document pair.key with
  | none =>
    (.exited, [.log .log_fatalx "invalid node index %d for group %d key"
      [.int pair.key, .int index]])
  | some key =>
    match yaml_document_get_node document pair.value with
    | none =>
      (.exited, [.log .log_fatalx "invalid node index %d for group %d value"
        [.int pair.value, .int index]])
    | some value =>
      match key.data with
      | .scalar group length =>
        if length = 0 then
          (.returned, [.log .log_warnx
            "expecting scalar at line %d column %d for group %d, got %d, ignoring group"
            [.int key.start_mark.line, .int key.start_mark.column, .int index, .int key.type]])
        else if MAXHOSTNAMELEN ≤ length then
          (.returned, [.log .log_warnx
            "group name '%s' too long (line %d column %d), ignoring group"
            [.str group, .int key.start_mark.line, .int key.start_mark.column]])
        else
          match value.data with
          | .sequence items =>
            let a := lib.mdns_group_add tr group
            if a = -1 then
              (.exited, [.call (.mdns_group_add group) a,
                .log .log_fatal "failed to add group '%s'" [.str group]])
            else
              let s := add_service_items env lib group document 1 items
                (tr ++ [.call (.mdns_group_add group) a])
              match s.1 with
              | .exited => (.exited, .call (.mdns_group_add group) a :: s.2)
              | .returned =>
                let c := lib.mdns_group_commit (tr ++ .call (.mdns_group_add group) a :: s.2) group
                if c = -1 then
                  (.exited, .call (.mdns_group_add group) a :: s.2 ++
                    [.call (.mdns_group_commit group) c,
                      .log .log_fatalx "failed to commit group '%s'" [.str group]])
                else
                  (.returned, .call (.mdns_group_add group) a :: s.2 ++
                    [.call (.mdns_group_commit group) c])
          | _ =>
            (.returned, [.log .log_warnx
              "expecting array of services for group '%s' (line %d column %d), got type %d, ignoring group"
              [.str group, .int value.start_mark.line, .int value.start_mark.column,
                .int value.type]])
      | _ =>
        (.returned, [.log .log_warnx
          "expecting scalar at line %d column %d for group %d, got %d, ignoring group"
          [.int key.start_mark.line, .int key.start_mark.column, .int index, .int key.type]])

/-! ## main: the loop over the documents of the stream -/

/-- The loop of `main` over the entries of the root mapping, from entry number `i` on. -/
def main_groups (env : Env) (lib : Lib) (document : yaml_document_t) :
    Int → List yaml_node_pair_t → List Event → Exit × List Event
  | _, [], _ => (.returned, [])
  | i, pair :: rest, tr =>
    match add_group env lib i document pair tr with
    | (.exited, evs) => (.exited, evs)
    | (.returned, evs) =>
      let r := main_groups env lib document (i + 1) rest (tr ++ evs)
      (r.1, evs ++ r.2)

/-- The block of `main` guarded by `!initialised`. -/
def main_initialise (lib : Lib) (debug : Bool) (initialised : Bool) (tr : List Event) :
    Exit × List Event :=
  if initialised then (.returned, [])
  else
    let r := lib.mdns_open tr
    if r = -1 then (.exited, [.call .mdns_open r, .log .log_fatal "mdns_open failed" []])
    else
      (.returned, [.call .mdns_open r, .call .mdns_set_group_hook 0,
        .log_init (if debug then 1 else 0)] ++ (if debug then [] else [.daemon]) ++
        [.log .log_notice "connected to mdnsd socket" []])

/-- The first loop of `main`. The parser is the list of the results of the successive
`yaml_parser_load` calls: `none` when the call fails, else the document; once the list
is used up the parser is at the end of the stream and loads a document without root.
`config` is `*argv`, `tr` the trace so far. -/
def main_load (env : Env) (lib : Lib) (debug : Bool) (config : String) :
    List (Option yaml_document_t) → Bool → List Event → Exit × List Event
  | [], _, _ => (.returned, [])
  | none :: _, _, _ => (.exited, [.log .log_fatalx "failed to parse '%s'" [.str config]])
  | some document :: rest, initialised, tr =>
    match yaml_document_get_root_node document with
    | none => (.returned, [])
    | some root =>
      match root.data with
      | .mapping pairs =>
        let o := main_initialise lib debug initialised tr
        match o.1 with
        | .exited => (.exited, o.2)
        | .returned =>
          let g := main_groups env lib document 1 pairs (tr ++ o.2)
          match g.1 with
          | .exited => (.exited, o.2 ++ g.2)
          | .returned =>
            let r := main_load env lib debug config rest true (tr ++ (o.2 ++ g.2))
            (r.1, o.2 ++ g.2 ++ r.2)
      | _ =>
        (.exited, [.log .log_fatalx
          "expecting a map at document root, got type %d (line %d column %d)"
          [.int root.type, .int root.start_mark.line, .int root.start_mark.column]])

/-! ## mdnsserve_group_hook -/

/-- The event hook `mdnsserve_group_hook`; the `switch` is over distinct constants. -/
def mdnsserve_group_hook (env : Env) (event : Int) (group : String) : Exit × List Event :=
  if event = env.MDNS_GROUP_ERR_COLLISION then
    (.returned, [.log .log_warnx "collision on group '%s', not published" [.str group]])
  else if event = env.MDNS_GROUP_ERR_NOT_FOUND then
    (.exited, [.log .log_fatalx "group '%s' not found, shutting down" [.str group]])
  else if event = env.MDNS_GROUP_ERR_DOUBLE_ADD then
    (.returned, [.log .log_warnx "group '%s' already added, not published" [.str group]])
  else if event = env.MDNS_GROUP_PROBING then
    (.returned, [.log .log_debug "probing group '%s'..." [.str group]])
  else if event = env.MDNS_GROUP_ANNOUNCING then
    (.returned, [.log .log_debug "announcing group '%s'..." [.str group]])
  else if event = env.MDNS_GROUP_PUBLISHED then
    (.returned, [.log .log_notice "group '%s' published" [.str group]])
  else
    (.returned, [.log .log_warnx "unhandled group event %d" [.int event]])

/-! ## main: privileges and the terminal loop -/

/-- What the system calls between the two loops of `main` report: the home directory of
the service account (`none` when `getpwnam` returns `NULL`), the results of `chroot`
and `chdir`, the effective user id, and whether one of `setgroups`, `setresgid`,
`setresuid` fails. -/
structure Sys where
  getpwnam : Option String
  chroot : Int
  chdir : Int
  geteuid : Int
  setids_fail : Bool

/-- The block of `main` guarded by `!debug`, between the two loops. -/
def main_drop_privileges (sys : Sys) (debug : Bool) : Exit × List Event :=
  if debug then (.returned, [])
  else
    match sys.getpwnam with
    | none =>
      (.exited, [.log .log_fatal
        "getpwnam failed, make sure you have user and group _mdnsserve" []])
    | some pw_dir =>
      if sys.chroot = -1 then
        (.exited, [.log .log_fatal "chroot(\"%s\") failed" [.str pw_dir]])
      else if sys.chdir = -1 then
        (.exited, [.log .log_fatal "chdir(\"/\") failed" []])
      else if sys.geteuid = 0 ∧ sys.setids_fail = true then
        (.exited, [.log .log_fatal "failed to drop privileges" []])
      else (.returned, [])

/-- The invocations of the group hook that one `mdns_read` call makes, in order. -/
def run_hooks (env : Env) : List (Int × String) → Exit × List Event
  | [] => (.returned, [])
  | (event, group) :: rest =>
    match mdnsserve_group_hook env event group with
    | (.exited, evs) => (.exited, evs)
    | (.returned, evs) =>
      let r := run_hooks env rest
      (r.1, evs ++ r.2)

/-- The second loop of `main`, run for at most `fuel` iterations: `none` when the loop is
still running after that many calls of `mdns_read`. `tr` is the trace so far. -/
def main_read (env : Env) (lib : Lib) : Nat → List Event → Option (Exit × List Event)
  | 0, _ => none
  | fuel + 1, tr =>
    let h := run_hooks env (lib.mdns_read_events tr)
    match h.1 with
    | .exited => some (.exited, h.2)
    | .returned =>
      let n := lib.mdns_read tr
      if n = -1 then
        some (.exited, h.2 ++ [.call .mdns_read n, .log .log_fatal "mdns_read failed" []])
      else if n = 0 then
        some (.returned, h.2 ++ [.call .mdns_read n,
          .log .log_notice "socket closed by mdnsd, shutting down" []])
      else
        (main_read env lib fuel (tr ++ (h.2 ++ [.call .mdns_read n]))).map
          (fun r => (r.1, h.2 ++ .call .mdns_read n :: r.2))

/-- The function `main` from the declaration of `mdns` and `initialised` on: the loop over
the documents, the privilege drop, and the terminal loop with at most `fuel` iterations.
`stream` lists the results of the `yaml_parser_load` calls as in `main_load`. -/
def main (env : Env) (lib : Lib) (sys : Sys) (debug : Bool) (config : String)
    (stream : List (Option yaml_document_t)) (fuel : Nat) : Option (Exit × List Event) :=
  let l := main_load env lib debug config stream false []
  match l.1 with
  | .exited => some (.exited, l.2)
  | .returned =>
    let p := main_drop_privileges sys debug
    match p.1 with
    | .exited => some (.exited, l.2 ++ p.2)
    | .returned =>
      (main_read env lib fuel (l.2 ++ p.2)).map (fun r => (r.1, l.2 ++ (p.2 ++ r.2)))

/-! ## Vocabulary of the statements -/

/-- The calls into libmdns among a list of events, in order. -/
def calls_of : List Event → List Call
  | [] => []
  | .call c _ :: rest => c :: calls_of rest
  | _ :: rest => calls_of rest

/-- A diagnostic of `log_warn` or `log_warnx`. -/
def is_warning : Event → Bool
  | .log .log_warn _ _ => true
  | .log .log_warnx _ _ => true
  | _ => false

/-- The function returned after one warning and nothing else: the unit was skipped. -/
def rejected (r : Exit × List Event) : Prop :=
  r.1 = .returned ∧ ∃ e, r.2 = [e] ∧ is_warning e = true

/-- Both indices of the pair refer to nodes of the document. -/
def pair_resolves (document : yaml_document_t) (p : yaml_node_pair_t) : Bool :=
  (yaml_document_get_node document p.key).isSome &&
    (yaml_document_get_node document p.value).isSome

/-- The indices held by the node refer to nodes of the document. -/
def node_wf (document : yaml_document_t) (n : yaml_node_t) : Bool :=
  match n.data with
  | .mapping pairs => pairs.all (pair_resolves document)
  | .sequence items => items.all (fun i => (yaml_document_get_node document i).isSome)
  | _ => true

/-- Every index in the document refers to a node of the document, as in every document
that `yaml_parser_load` builds. -/
def document_wf (document : yaml_document_t) : Bool :=
  document.all (node_wf document)

/-- The key of the pair when it is a non-empty scalar. -/
def pair_key (document : yaml_document_t) (p : yaml_node_pair_t) : Option String :=
  (yaml_document_get_node document p.key).bind nonempty_scalar

/-- The value of the pair when it is a non-empty scalar. -/
def pair_value (document : yaml_document_t) (p : yaml_node_pair_t) : Option String :=
  (yaml_document_get_node document p.value).bind nonempty_scalar

/-- Some pair of the mapping has the key `k`. -/
def has_key (document : yaml_document_t) (k : String) (pairs : List yaml_node_pair_t) : Bool :=
  pairs.any (fun p => pair_key document p == some k)

/-- The value the mapping gives to the key `k`: that of the last pair with this key. -/
def node_value (document : yaml_document_t) (k : String) :
    List yaml_node_pair_t → Option String
  | [] => none
  | p :: rest =>
    match node_value document k rest with
    | some x => some x
    | none => if pair_key document p = some k then pair_value document p else none

/-- The number that a string of decimal digits denotes. -/
def decimal_value (ds : List Char) : Nat :=
  ds.foldl (fun a c => a * 10 + (c.toNat - 48)) 0

/-- The number a `port` value stands for, when `strtonum` accepts it. -/
def parse_port (x : String) : Option Int :=
  match strtonum x 0 UINT16_MAX with
  | .ok n => some n
  | .error _ => none

/-- Key and value of the pair are non-empty scalars, an `address` value is one that
`inet_pton` accepts and a `port` value one that `strtonum` accepts. -/
def pair_good (env : Env) (document : yaml_document_t) (p : yaml_node_pair_t) : Bool :=
  match pair_key document p, pair_value document p with
  | some k, some x =>
    (k != "address" || (env.inet_pton x).isSome) && (k != "port" || (parse_port x).isSome)
  | _, _ => false

/-- What a pair with key `k` and value `x` does to the variables of `add_service`;
`none` when the value is refused. -/
def pair_effect (env : Env) (k x : String) (v : service_vars) : Option service_vars :=
  if k = "service" then some { v with service := some x }
  else if k = "protocol" then some { v with protocol := some x }
  else if k = "hostname" then some { v with hostname := some x }
  else if k = "address" then (env.inet_pton x).map (fun a => { v with address := some a })
  else if k = "port" then (parse_port x).map (fun n => { v with port := n })
  else if k = "text" then some { v with text := x }
  else some v

/-- The variables of `add_service` after the loop over the pairs, when no pair is refused. -/
def scan_vars (env : Env) (document : yaml_document_t) :
    List yaml_node_pair_t → service_vars → Option service_vars
  | [], v => some v
  | p :: rest, v =>
    match pair_key document p, pair_value document p with
    | some k, some x =>
      match pair_effect env k x v with
      | some w => scan_vars env document rest w
      | none => none
    | _, _ => none

/-- The port the mapping asks for: the parsed `port` value, 0 without a `port` key. -/
def node_port (document : yaml_document_t) (pairs : List yaml_node_pair_t) : Int :=
  match node_value document "port" pairs with
  | some x => (parse_port x).getD 0
  | none => 0

/-- The descriptor the mapping describes, for service label `s` and protocol `p`. -/
def node_descriptor (env : Env) (group : String) (document : yaml_document_t)
    (pairs : List yaml_node_pair_t) (s p : String) : mdns_service :=
  ⟨group, s, p, node_port document pairs, (node_value document "text" pairs).getD "",
    node_value document "hostname" pairs,
    (node_value document "address" pairs).bind env.inet_pton⟩

/-- The six event codes of `mdns.h` are distinct, as the labels of one `switch` are. -/
def event_codes_distinct (env : Env) : Prop :=
  [env.MDNS_GROUP_ERR_COLLISION, env.MDNS_GROUP_ERR_NOT_FOUND, env.MDNS_GROUP_ERR_DOUBLE_ADD,
    env.MDNS_GROUP_PROBING, env.MDNS_GROUP_ANNOUNCING, env.MDNS_GROUP_PUBLISHED].Nodup

/-- The descriptor `add_service` registers for the item: the one that passes
`add_service_check` and that `mdns_service_init` accepts. -/
def accepted_service (env : Env) (lib : Lib) (group : String) (index : Int)
    (document : yaml_document_t) (item : Option yaml_node_t) : Option mdns_service :=
  match add_service_check env group index document item with
  | .next ms => if lib.mdns_service_init ms = -1 then none else some ms
  | _ => none

/-- The `mdns_group_add_service` calls for the accepted items of a sequence, in document
order, the items numbered from `i` on. -/
def accepted_calls (env : Env) (lib : Lib) (group : String) (document : yaml_document_t) :
    Int → List Int → List Call
  | _, [] => []
  | i, item :: rest =>
    (match accepted_service env lib group i document (yaml_document_get_node document item) with
      | some ms => [Call.mdns_group_add_service group ms]
      | none => []) ++ accepted_calls env lib group document (i + 1) rest

/-- The diagnostics among a list of events, in order. -/
def logs_of : List Event → List Event
  | [] => []
  | .log fn fmt args :: rest => .log fn fmt args :: logs_of rest
  | _ :: rest => logs_of rest

/-- The group name under which `add_group` defines the entry: the key when it is a
scalar of 1 to `MAXHOSTNAMELEN - 1` bytes and the value is a sequence. -/
def entry_group (document : yaml_document_t) (pair : yaml_node_pair_t) : Option String :=
  match yaml_document_get_node document pair.key, yaml_document_get_node document pair.value with
  | some key, some value =>
    match key.data, value.data with
    | .scalar group length, .sequence _ =>
      if length = 0 ∨ MAXHOSTNAMELEN ≤ length then none else some group
    | _, _ => none
  | _, _ => none

/-- The group names of the entries of the root mapping, in document order. -/
def document_groups (document : yaml_document_t) : List (Option String) :=
  match yaml_document_get_root_node document with
  | some root =>
    match root.data with
    | .mapping pairs => pairs.map (entry_group document)
    | _ => []
  | none => []

/-- The group names of the entries of all documents of a stream, in order. -/
def stream_groups : List yaml_document_t → List (Option String)
  | [] => []
  | document :: rest => document_groups document ++ stream_groups rest

/-- The call names the group `g`. -/
def call_names (g : String) : Call → Bool
  | .mdns_group_add h => h = g
  | .mdns_group_add_service h _ => h = g
  | .mdns_group_commit h => h = g
  | _ => false

/-- The calls that name `g` are those of one group: its definition, the registrations
of its services, and last its commit. -/
def one_group (g : String) (calls : List Call) : Prop :=
  ∃ svcs, (∀ c ∈ svcs, ∃ ms, c = Call.mdns_group_add_service g ms) ∧
    calls.filter (call_names g) =
      Call.mdns_group_add g :: (svcs ++ [Call.mdns_group_commit g])

/-- The items of the sequence that is the value of the entry. -/
def entry_items (document : yaml_document_t) (pair : yaml_node_pair_t) : List Int :=
  match yaml_document_get_node document pair.value with
  | some value =>
    match value.data with
    | .sequence items => items
    | _ => []
  | none => []

/-- The libmdns calls for one entry of the root mapping when the library accepts every
group: definition, registration of the accepted items, commit; none for a skipped entry. -/
def entry_calls (env : Env) (lib : Lib) (document : yaml_document_t)
    (pair : yaml_node_pair_t) : List Call :=
  match entry_group document pair with
  | some g =>
    Call.mdns_group_add g ::
      (accepted_calls env lib g document 1 (entry_items document pair) ++
        [Call.mdns_group_commit g])
  | none => []

/-- The libmdns calls for the entries of a root mapping, in document order. -/
def entries_calls (env : Env) (lib : Lib) (document : yaml_document_t) :
    List yaml_node_pair_t → List Call
  | [] => []
  | pair :: rest => entry_calls env lib document pair ++ entries_calls env lib document rest

/-- The group that the call defines. -/
def defined_group : Call → Option String
  | .mdns_group_add g => some g
  | _ => none

/-- The group that the call commits. -/
def committed_group : Call → Option String
  | .mdns_group_commit g => some g
  | _ => none

/-- The call defines a group, registers a service or commits a group. -/
def group_call : Call → Bool
  | .mdns_group_add _ => true
  | .mdns_group_add_service _ _ => true
  | .mdns_group_commit _ => true
  | _ => false

/-! ## Sample documents and libraries -/

/-- A scalar node holding the characters of `s` and nothing else. -/
def scalar_node (s : String) : yaml_node_t :=
  ⟨.scalar s s.length, ⟨0, 0⟩⟩

/-- The document `{"printer": [{"service":"ipp","protocol":"tcp","port":"631"}]}`, nodes
numbered in the order libyaml creates them. -/
def printer_document : yaml_document_t :=
  [⟨.mapping [⟨2, 3⟩], ⟨0, 0⟩⟩, scalar_node "printer", ⟨.sequence [4], ⟨0, 11⟩⟩,
    ⟨.mapping [⟨5, 6⟩, ⟨7, 8⟩, ⟨9, 10⟩], ⟨0, 12⟩⟩,
    scalar_node "service", scalar_node "ipp", scalar_node "protocol", scalar_node "tcp",
    scalar_node "port", scalar_node "631"]

/-- The document `{"web": [{"service":"http","protocol":"tcp","port":"80","hostname":"box"}]}`. -/
def box_document : yaml_document_t :=
  [⟨.mapping [⟨2, 3⟩], ⟨0, 0⟩⟩, scalar_node "web", ⟨.sequence [4], ⟨0, 7⟩⟩,
    ⟨.mapping [⟨5, 6⟩, ⟨7, 8⟩, ⟨9, 10⟩, ⟨11, 12⟩], ⟨0, 8⟩⟩,
    scalar_node "service", scalar_node "http", scalar_node "protocol", scalar_node "tcp",
    scalar_node "port", scalar_node "80", scalar_node "hostname", scalar_node "box"]

/-- An environment for the samples: `inet_pton` knows the address 192.0.2.1 only, the
event codes are numbered from 0. -/
def sample_env : Env where
  inet_pton := fun s => if s = "192.0.2.1" then some ⟨3221225985⟩ else none
  inet_ntop := fun _ => "192.0.2.1"
  MDNS_GROUP_ERR_COLLISION := 0
  MDNS_GROUP_ERR_NOT_FOUND := 1
  MDNS_GROUP_ERR_DOUBLE_ADD := 2
  MDNS_GROUP_PROBING := 3
  MDNS_GROUP_ANNOUNCING := 4
  MDNS_GROUP_PUBLISHED := 5

/-- A library in which every call succeeds. -/
def sample_lib : Lib where
  mdns_service_init := fun _ => 0
  mdns_open := fun _ => 0
  mdns_group_add := fun _ _ => 0
  mdns_group_add_service := fun _ _ _ => 0
  mdns_group_commit := fun _ _ => 0
  mdns_read := fun _ => 0

/-- A library whose `mdns_service_init` reports a failure for a service label of 64 bytes
or more, one that does not fit a DNS label; every other call succeeds. -/
def refusing_lib : Lib where
  mdns_service_init := fun ms => if ms.service.length < 64 then 0 else -1
  mdns_open := fun _ => 0
  mdns_group_add := fun _ _ => 0
  mdns_group_add_service := fun _ _ _ => 0
  mdns_group_commit := fun _ _ => 0
  mdns_read := fun _ => 0

/-- A service label of 100 bytes. -/
def label100 : String := String.mk (List.replicate 100 's')

/-- The document `{"printer": [{"service": <label100>, "protocol":"tcp", "port":"631"}]}`. -/
def long_label_document : yaml_document_t :=
  [⟨.mapping [⟨2, 3⟩], ⟨0, 0⟩⟩, scalar_node "printer", ⟨.sequence [4], ⟨0, 11⟩⟩,
    ⟨.mapping [⟨5, 6⟩, ⟨7, 8⟩, ⟨9, 10⟩], ⟨0, 12⟩⟩,
    scalar_node "service", scalar_node label100, scalar_node "protocol", scalar_node "tcp",
    scalar_node "port", scalar_node "631"]

/-- The service node `{service: ipp, protocol: <protocol>, port: <port>}` as a document of
its own: node 1 is the mapping. -/
def service_document (protocol port : yaml_node_t) : yaml_document_t :=
  [⟨.mapping [⟨2, 3⟩, ⟨4, 5⟩, ⟨6, 7⟩], ⟨0, 0⟩⟩, scalar_node "service", scalar_node "ipp",
    scalar_node "protocol", protocol, scalar_node "port", port]

/-- A group name of 255 bytes. -/
def name255 : String := String.mk (List.replicate 255 'a')

/-- The document `{<name255>: []}`. -/
def long_name_document : yaml_document_t :=
  [⟨.mapping [⟨2, 3⟩], ⟨0, 0⟩⟩, scalar_node name255, ⟨.sequence [], ⟨0, 257⟩⟩]

/-- The document `{"box": "http"}`, whose only entry has a scalar value. -/
def scalar_entry_document : yaml_document_t :=
  [⟨.mapping [⟨2, 3⟩], ⟨0, 0⟩⟩, scalar_node "box", scalar_node "http"]

/-- A system in which every call between the two loops of `main` succeeds. -/
def sample_sys : Sys where
  getpwnam := some "/var/empty"
  chroot := 0
  chdir := 0
  geteuid := 0
  setids_fail := false

/-- A library whose `mdns_read` returns -2 on its first call and 0 afterwards; every other
call succeeds. -/
def minus_two_lib : Lib where
  mdns_service_init := fun _ => 0
  mdns_open := fun _ => 0
  mdns_group_add := fun _ _ => 0
  mdns_group_add_service := fun _ _ _ => 0
  mdns_group_commit := fun _ _ => 0
  mdns_read := fun tr => if Event.call .mdns_read (-2) ∈ tr then 0 else -2

/-- The printer document with two more nodes, the scalars "note" and "x" (nodes 11, 12). -/
def noted_document : yaml_document_t :=
  printer_document ++ [scalar_node "note", scalar_node "x"]

/-- The service node `{service: ipp, protocol: tcp, <key>: <value>}` as a document of its
own: node 1 is the mapping. -/
def extra_document (key value : yaml_node_t) : yaml_document_t :=
  [⟨.mapping [⟨2, 3⟩, ⟨4, 5⟩, ⟨6, 7⟩], ⟨0, 0⟩⟩, scalar_node "service", scalar_node "ipp",
    scalar_node "protocol", scalar_node "tcp", key, value]

/-- The document `{"web": [{"service":"http","protocol":"tcp","port":"80"}]}`. -/
def web_document : yaml_document_t :=
  [⟨.mapping [⟨2, 3⟩], ⟨0, 0⟩⟩, scalar_node "web", ⟨.sequence [4], ⟨0, 7⟩⟩,
    ⟨.mapping [⟨5, 6⟩, ⟨7, 8⟩, ⟨9, 10⟩], ⟨0, 8⟩⟩,
    scalar_node "service", scalar_node "http", scalar_node "protocol", scalar_node "tcp",
    scalar_node "port", scalar_node "80"]

/-- A library that fails to define any group; every other call succeeds. -/
def failing_define_lib : Lib where
  mdns_service_init := fun _ => 0
  mdns_open := fun _ => 0
  mdns_group_add := fun _ _ => -1
  mdns_group_add_service := fun _ _ _ => 0
  mdns_group_commit := fun _ _ => 0
  mdns_read := fun _ => 0

/-! ## The loop over the pairs of a service mapping -/

theorem add_service_pair_next_iff (env : Env) (group : String) (index : Int)
    (document : yaml_document_t) (i : Int) (p : yaml_node_pair_t) (v w : service_vars) :
    add_service_pair env group index document i p v = .next w ↔
      ∃ k x, pair_key document p = some k ∧ pair_value document p = some x ∧
        pair_effect env k x v = some w := by
  unfold add_service_pair pair_key pair_value
  cases hk : yaml_document_get_node document p.key with
  | none => simp
  | some key =>
    cases hv : yaml_document_get_node document p.value with
    | none => simp
    | some value =>
      cases hks : nonempty_scalar key with
      | none => simp [hks]
      | some k =>
        cases hvs : nonempty_scalar value with
        | none => simp [hks, hvs]
        | some x =>
          simp only [Option.some_bind, hks, hvs, Option.some.injEq, exists_and_left, exists_eq_left']
          unfold pair_effect parse_port
          split_ifs <;> (try cases env.inet_pton x) <;> (try cases strtonum x 0 UINT16_MAX) <;> simp

theorem add_service_pairs_next_iff (env : Env) (group : String) (index : Int)
    (document : yaml_document_t) (pairs : List yaml_node_pair_t) :
    ∀ (i : Int) (v w : service_vars),
      add_service_pairs env group index document i pairs v = .next w ↔
        scan_vars env document pairs v = some w := by
  induction pairs with
  | nil => intro i v w; simp [add_service_pairs, scan_vars]
  | cons p rest ih =>
    intro i v w
    unfold add_service_pairs scan_vars
    cases hstep : add_service_pair env group index document i p v with
    | next u =>
      obtain ⟨k, x, hk, hx, he⟩ := (add_service_pair_next_iff env group index document i p v u).1 hstep
      simp only [hk, hx, he]
      exact ih (i + 1) u w
    | stop e =>
      refine ⟨fun h => (nomatch h), fun h => ?_⟩
      cases hk : pair_key document p with
      | none => simp [hk] at h
      | some k =>
        cases hx : pair_value document p with
        | none => simp [hk, hx] at h
        | some x =>
          cases he : pair_effect env k x v with
          | none => simp [hk, hx, he] at h
          | some u =>
            have := (add_service_pair_next_iff env group index document i p v u).2 ⟨k, x, hk, hx, he⟩
            rw [hstep] at this
            cases this
    | die e =>
      refine ⟨fun h => (nomatch h), fun h => ?_⟩
      cases hk : pair_key document p with
      | none => simp [hk] at h
      | some k =>
        cases hx : pair_value document p with
        | none => simp [hk, hx] at h
        | some x =>
          cases he : pair_effect env k x v with
          | none => simp [hk, hx, he] at h
          | some u =>
            have := (add_service_pair_next_iff env group index document i p v u).2 ⟨k, x, hk, hx, he⟩
            rw [hstep] at this
            cases this

theorem add_service_pair_stop_warning (env : Env) (group : String) (index : Int)
    (document : yaml_document_t) (i : Int) (p : yaml_node_pair_t) (v : service_vars) (e : Event)
    (h : add_service_pair env group index document i p v = .stop e) : is_warning e = true := by
  unfold add_service_pair at h
  repeat' split at h
  all_goals first
    | (cases h; rfl)
    | cases h

theorem add_service_pair_die (env : Env) (group : String) (index : Int)
    (document : yaml_document_t) (i : Int) (p : yaml_node_pair_t) (v : service_vars) (e : Event)
    (h : add_service_pair env group index document i p v = .die e) :
    pair_resolves document p = false := by
  unfold add_service_pair at h
  unfold pair_resolves
  repeat' split at h
  all_goals first
    | (cases h; simp_all)
    | cases h

theorem add_service_pairs_stop_warning (env : Env) (group : String) (index : Int)
    (document : yaml_document_t) (pairs : List yaml_node_pair_t) :
    ∀ (i : Int) (v : service_vars) (e : Event),
      add_service_pairs env group index document i pairs v = .stop e → is_warning e = true := by
  induction pairs with
  | nil => intro i v e h; simp [add_service_pairs] at h
  | cons p rest ih =>
    intro i v e h
    unfold add_service_pairs at h
    cases hstep : add_service_pair env group index document i p v with
    | next u => rw [hstep] at h; exact ih (i + 1) u e h
    | stop d =>
      rw [hstep] at h
      cases h
      exact add_service_pair_stop_warning env group index document i p v e hstep
    | die d => rw [hstep] at h; cases h

theorem add_service_pairs_die (env : Env) (group : String) (index : Int)
    (document : yaml_document_t) (pairs : List yaml_node_pair_t) :
    ∀ (i : Int) (v : service_vars) (e : Event),
      add_service_pairs env group index document i pairs v = .die e →
        pairs.all (pair_resolves document) = false := by
  induction pairs with
  | nil => intro i v e h; simp [add_service_pairs] at h
  | cons p rest ih =>
    intro i v e h
    unfold add_service_pairs at h
    cases hstep : add_service_pair env group index document i p v with
    | next u =>
      rw [hstep] at h
      simp only [List.all_cons, Bool.and_eq_false_imp]
      intro _
      exact ih (i + 1) u e h
    | stop d => rw [hstep] at h; cases h
    | die d =>
      simp [List.all_cons, add_service_pair_die env group index document i p v d hstep]

theorem pair_effect_isSome (env : Env) (k x : String) (v : service_vars) :
    (pair_effect env k x v).isSome =
      ((k != "address" || (env.inet_pton x).isSome) &&
        (k != "port" || (parse_port x).isSome)) := by
  unfold pair_effect
  split_ifs <;> simp_all

theorem scan_vars_isSome (env : Env) (document : yaml_document_t)
    (pairs : List yaml_node_pair_t) :
    ∀ v : service_vars,
      (scan_vars env document pairs v).isSome = pairs.all (pair_good env document) := by
  induction pairs with
  | nil => intro v; simp [scan_vars]
  | cons p rest ih =>
    intro v
    unfold scan_vars
    simp only [List.all_cons]
    cases hk : pair_key document p with
    | none => simp [pair_good, hk]
    | some k =>
      cases hx : pair_value document p with
      | none => simp [pair_good, hk, hx]
      | some x =>
        have hg : pair_good env document p = (pair_effect env k x v).isSome := by
          rw [pair_effect_isSome]; simp [pair_good, hk, hx]
        rw [hg]
        cases he : pair_effect env k x v with
        | none => simp [he]
        | some u => simpa [he] using ih u

theorem pair_effect_fields (env : Env) (k x : String) (v u : service_vars)
    (h : pair_effect env k x v = some u) :
    u.service = (if k = "service" then some x else v.service) ∧
    u.protocol = (if k = "protocol" then some x else v.protocol) ∧
    u.hostname = (if k = "hostname" then some x else v.hostname) ∧
    u.address = (if k = "address" then env.inet_pton x else v.address) ∧
    u.port = (if k = "port" then (parse_port x).getD 0 else v.port) ∧
    u.text = (if k = "text" then x else v.text) := by
  unfold pair_effect at h
  split_ifs at h with h1 h2 h3 h4 h5 h6
  · cases h; subst h1; simp
  · cases h; subst h2; simp
  · cases h; subst h3; simp
  · subst h4
    cases ha : env.inet_pton x with
    | none => simp [ha] at h
    | some a => simp [ha] at h; subst h; simp
  · subst h5
    cases hp : parse_port x with
    | none => simp [hp] at h
    | some n => simp [hp] at h; subst h; simp
  · cases h; subst h6; simp
  · cases h; simp [*]

theorem scan_vars_fields (env : Env) (document : yaml_document_t)
    (pairs : List yaml_node_pair_t) :
    ∀ v w : service_vars, scan_vars env document pairs v = some w →
      w.service = (node_value document "service" pairs).or v.service ∧
      w.protocol = (node_value document "protocol" pairs).or v.protocol ∧
      w.hostname = (node_value document "hostname" pairs).or v.hostname ∧
      w.address = (match node_value document "address" pairs with
        | some x => env.inet_pton x
        | none => v.address) ∧
      w.port = (match node_value document "port" pairs with
        | some x => (parse_port x).getD 0
        | none => v.port) ∧
      w.text = (node_value document "text" pairs).getD v.text := by
  induction pairs with
  | nil => intro v w h; simp [scan_vars] at h; subst h; simp [node_value]
  | cons p rest ih =>
    intro v w h
    unfold scan_vars at h
    cases hk : pair_key document p with
    | none => simp [hk] at h
    | some k =>
      cases hx : pair_value document p with
      | none => simp [hk, hx] at h
      | some x =>
        cases he : pair_effect env k x v with
        | none => simp [hk, hx, he] at h
        | some u =>
          simp only [hk, hx, he] at h
          obtain ⟨i1, i2, i3, i4, i5, i6⟩ := ih u w h
          obtain ⟨e1, e2, e3, e4, e5, e6⟩ := pair_effect_fields env k x v u he
          simp only [node_value, hk, hx, Option.some.injEq]
          refine ⟨?_, ?_, ?_, ?_, ?_, ?_⟩
          · rw [i1, e1]; cases node_value document "service" rest <;> simp
            split_ifs <;> simp
          · rw [i2, e2]; cases node_value document "protocol" rest <;> simp
            split_ifs <;> simp
          · rw [i3, e3]; cases node_value document "hostname" rest <;> simp
            split_ifs <;> simp
          · rw [i4, e4]; cases node_value document "address" rest <;> simp
            split_ifs <;> simp
          · rw [i5, e5]; cases node_value document "port" rest <;> simp
            split_ifs <;> simp
          · rw [i6, e6]; cases node_value document "text" rest <;> simp
            split_ifs <;> simp

theorem node_value_mem (document : yaml_document_t) (k x : String)
    (pairs : List yaml_node_pair_t) (h : node_value document k pairs = some x) :
    ∃ p ∈ pairs, pair_key document p = some k ∧ pair_value document p = some x := by
  induction pairs with
  | nil => simp [node_value] at h
  | cons p rest ih =>
    unfold node_value at h
    cases hr : node_value document k rest with
    | some y =>
      rw [hr] at h
      cases h
      obtain ⟨q, hq, hqk⟩ := ih hr
      exact ⟨q, List.mem_cons_of_mem _ hq, hqk⟩
    | none =>
      rw [hr] at h
      simp only at h
      split_ifs at h with hk
      exact ⟨p, List.mem_cons_self _ _, hk, h⟩

theorem node_value_of_no_key (document : yaml_document_t) (k : String)
    (pairs : List yaml_node_pair_t) (h : has_key document k pairs = false) :
    node_value document k pairs = none := by
  cases hv : node_value document k pairs with
  | none => rfl
  | some x =>
    obtain ⟨p, hp, hk, _⟩ := node_value_mem document k x pairs hv
    have : has_key document k pairs = true := by
      unfold has_key
      rw [List.any_eq_true]
      exact ⟨p, hp, by simp [hk]⟩
    rw [h] at this
    cases this

theorem node_value_isSome (env : Env) (document : yaml_document_t) (k : String)
    (pairs : List yaml_node_pair_t) (hg : pairs.all (pair_good env document) = true) :
    (node_value document k pairs).isSome = has_key document k pairs := by
  induction pairs with
  | nil => simp [node_value, has_key]
  | cons p rest ih =>
    simp only [List.all_cons, Bool.and_eq_true] at hg
    have ih2 := ih hg.2
    unfold has_key at ih2 ⊢
    simp only [List.any_cons]
    rw [← ih2]
    simp only [node_value]
    cases hr : node_value document k rest with
    | some y => simp
    | none =>
      have hp := hg.1
      unfold pair_good at hp
      cases hk : pair_key document p with
      | none => simp [hk] at hp
      | some k2 =>
        cases hx : pair_value document p with
        | none => simp [hk, hx] at hp
        | some x =>
          by_cases hkk : k2 = k
          · simp [hkk]
          · simp [hkk]

theorem node_address_valid (env : Env) (document : yaml_document_t)
    (pairs : List yaml_node_pair_t) (hg : pairs.all (pair_good env document) = true)
    (x : String) (h : node_value document "address" pairs = some x) :
    (env.inet_pton x).isSome = true := by
  obtain ⟨p, hp, hk, hx⟩ := node_value_mem document "address" x pairs h
  have := (List.all_eq_true.1 hg) p hp
  simpa [pair_good, hk, hx] using this

theorem node_port_valid (env : Env) (document : yaml_document_t)
    (pairs : List yaml_node_pair_t) (hg : pairs.all (pair_good env document) = true)
    (x : String) (h : node_value document "port" pairs = some x) :
    (parse_port x).isSome = true := by
  obtain ⟨p, hp, hk, hx⟩ := node_value_mem document "port" x pairs h
  have := (List.all_eq_true.1 hg) p hp
  simpa [pair_good, hk, hx] using this

theorem add_service_check_next_iff (env : Env) (group : String) (index : Int)
    (document : yaml_document_t) (mark : yaml_mark_t) (pairs : List yaml_node_pair_t)
    (ms : mdns_service) :
    add_service_check env group index document (some ⟨.mapping pairs, mark⟩) = .next ms ↔
      pairs.all (pair_good env document) = true ∧
      ∃ s p, node_value document "service" pairs = some s ∧
        node_value document "protocol" pairs = some p ∧ (p = "tcp" ∨ p = "udp") ∧
        (node_value document "hostname" pairs).isSome =
          (node_value document "address" pairs).isSome ∧
        ms = node_descriptor env group document pairs s p := by
  unfold add_service_check
  simp only
  cases hscan : add_service_pairs env group index document 1 pairs {} with
  | die e =>
    have hn : scan_vars env document pairs {} = none := by
      cases hv : scan_vars env document pairs {} with
      | none => rfl
      | some w =>
        rw [← add_service_pairs_next_iff env group index document pairs 1, hscan] at hv
        cases hv
    have hg := scan_vars_isSome env document pairs {}
    rw [hn] at hg
    simp [← hg]
  | stop e =>
    have hn : scan_vars env document pairs {} = none := by
      cases hv : scan_vars env document pairs {} with
      | none => rfl
      | some w =>
        rw [← add_service_pairs_next_iff env group index document pairs 1, hscan] at hv
        cases hv
    have hg := scan_vars_isSome env document pairs {}
    rw [hn] at hg
    simp [← hg]
  | next w =>
    have hv := (add_service_pairs_next_iff env group index document pairs 1 {} w).1 hscan
    have hg := scan_vars_isSome env document pairs {}
    rw [hv] at hg
    simp only [Option.isSome_some] at hg
    obtain ⟨f1, f2, f3, f4, f5, f6⟩ := scan_vars_fields env document pairs {} w hv
    simp only [Option.or_none] at f1 f2 f3
    simp only [← hg, true_and]
    have ha : w.address = (node_value document "address" pairs).bind env.inet_pton := by
      rw [f4]; cases node_value document "address" pairs <;> rfl
    have hai : w.address.isSome = (node_value document "address" pairs).isSome := by
      rw [ha]
      cases hx : node_value document "address" pairs with
      | none => rfl
      | some x => simpa using node_address_valid env document pairs hg.symm x hx
    have hd : ∀ s p, (⟨group, s, p, w.port, w.text, w.hostname, w.address⟩ : mdns_service) =
        node_descriptor env group document pairs s p := by
      intro s p
      unfold node_descriptor node_port
      rw [f5, f6, f3, ha]
    rw [f1, f2]
    cases hs : node_value document "service" pairs with
    | none => simp
    | some s =>
      cases hp : node_value document "protocol" pairs with
      | none => simp
      | some p =>
        simp only [Option.some.injEq, exists_and_left, exists_eq_left']
        by_cases hpp : p ≠ "tcp" ∧ p ≠ "udp"
        · rw [if_pos hpp]
          constructor
          · intro h; cases h
          · rintro ⟨h1, _⟩
            rcases h1 with h1 | h1 <;> simp [h1] at hpp
        · rw [if_neg hpp]
          have hpp2 : p = "tcp" ∨ p = "udp" := by
            by_contra hc
            push_neg at hc
            exact hpp hc
          rw [hd, hai, f3]
          by_cases hh : (node_value document "hostname" pairs).isSome =
              (node_value document "address" pairs).isSome
          · simp [hh, hpp2, eq_comm]
          · have : ((node_value document "hostname" pairs).isSome !=
                (node_value document "address" pairs).isSome) = true := by
              simpa using hh
            rw [if_pos this]
            constructor
            · intro h; cases h
            · rintro ⟨_, h2, _⟩
              exact absurd h2 hh

theorem add_service_check_stop_warning (env : Env) (group : String) (index : Int)
    (document : yaml_document_t) (item : Option yaml_node_t) (e : Event)
    (h : add_service_check env group index document item = .stop e) : is_warning e = true := by
  unfold add_service_check at h
  split at h
  · cases h
  · split at h
    · split at h
      · cases h
      · cases h
        exact add_service_pairs_stop_warning _ _ _ _ _ _ _ _ (by assumption)
      · repeat' split at h
        all_goals first
          | (cases h; rfl)
          | cases h
    · cases h; rfl

theorem add_service_check_die (env : Env) (group : String) (index : Int)
    (document : yaml_document_t) (item : yaml_node_t) (e : Event)
    (h : add_service_check env group index document (some item) = .die e) :
    node_wf document item = false := by
  unfold add_service_check at h
  simp only at h
  split at h
  · rename_i pairs hd
    split at h
    · unfold node_wf
      rw [hd]
      exact add_service_pairs_die _ _ _ _ _ _ _ _ (by assumption)
    · cases h
    · repeat' split at h
      all_goals cases h
  · cases h

/-- A node that fails a test of `add_service_check` is skipped with that one warning. -/
theorem add_service_of_stop (env : Env) (lib : Lib) (group : String) (index : Int)
    (document : yaml_document_t) (item : Option yaml_node_t) (tr : List Event) (e : Event)
    (h : add_service_check env group index document item = .stop e) :
    add_service env lib group index document item tr = (.returned, [e]) := by
  unfold add_service
  rw [h]

/-- A node with resolvable indices that does not pass `add_service_check` is rejected. -/
theorem add_service_rejected (env : Env) (lib : Lib) (group : String) (index : Int)
    (document : yaml_document_t) (item : yaml_node_t) (tr : List Event)
    (hwf : node_wf document item = true)
    (h : ∀ ms, add_service_check env group index document (some item) ≠ .next ms) :
    rejected (add_service env lib group index document (some item) tr) ∧
      calls_of (add_service env lib group index document (some item) tr).2 = [] := by
  cases hc : add_service_check env group index document (some item) with
  | next ms => exact absurd hc (h ms)
  | die e =>
    have := add_service_check_die env group index document item e hc
    rw [hwf] at this
    cases this
  | stop e =>
    have hw := add_service_check_stop_warning env group index document (some item) e hc
    rw [add_service_of_stop env lib group index document (some item) tr e hc]
    refine ⟨⟨rfl, e, rfl, hw⟩, ?_⟩
    cases e with
    | call c r => simp [is_warning] at hw
    | log fn fmt args => rfl
    | log_init d => simp [is_warning] at hw
    | daemon => simp [is_warning] at hw

/-- A node that passes `add_service_check` and whose descriptor `mdns_service_init`
accepts is registered with exactly one `mdns_group_add_service` call. -/
theorem add_service_of_next (env : Env) (lib : Lib) (group : String) (index : Int)
    (document : yaml_document_t) (item : Option yaml_node_t) (tr : List Event) (ms : mdns_service)
    (h : add_service_check env group index document item = .next ms)
    (hinit : lib.mdns_service_init ms ≠ -1) :
    (add_service env lib group index document item tr).1 = .returned ∧
      calls_of (add_service env lib group index document item tr).2 =
        [.mdns_group_add_service group ms] := by
  unfold add_service
  rw [h]
  simp only [if_neg hinit]
  split_ifs
  · exact ⟨rfl, rfl⟩
  · split <;> exact ⟨rfl, rfl⟩

theorem strtonum_ok_range (s : String) (lo hi n : Int) (h : strtonum s lo hi = .ok n) :
    lo ≤ n ∧ n ≤ hi := by
  simp only [strtonum] at h
  split_ifs at h with h1 h2 h3 h4
  cases h
  push_neg at h3 h4
  exact ⟨h3.2, h4.2⟩

theorem parse_port_of_ok (x : String) (n : Int) (h : strtonum x 0 UINT16_MAX = .ok n) :
    parse_port x = some n := by
  unfold parse_port; rw [h]

theorem parse_port_of_error (x err : String) (h : strtonum x 0 UINT16_MAX = .error err) :
    parse_port x = none := by
  unfold parse_port; rw [h]

theorem node_value_of_mem_nodup (document : yaml_document_t) (k : String)
    (pairs : List yaml_node_pair_t) (hd : (pairs.map (pair_key document)).Nodup)
    (q : yaml_node_pair_t) (hq : q ∈ pairs) (hk : pair_key document q = some k) :
    node_value document k pairs = pair_value document q := by
  induction pairs with
  | nil => cases hq
  | cons p rest ih =>
    simp only [List.map_cons, List.nodup_cons, List.mem_map, not_exists, not_and] at hd
    simp only [node_value]
    rcases List.mem_cons.1 hq with rfl | hq2
    · have hno : has_key document k rest = false := by
        unfold has_key
        rw [Bool.eq_false_iff]
        intro ht
        obtain ⟨r, hr, hrk⟩ := List.any_eq_true.1 ht
        simp only [beq_iff_eq] at hrk
        exact hd.1 r hr (hrk.trans hk.symm)
      rw [node_value_of_no_key document k rest hno]
      simp [hk]
    · have h1 := ih hd.2 hq2
      rw [h1]
      cases hv : pair_value document q with
      | some y => rfl
      | none =>
        have : pair_key document p ≠ some k := fun hp => hd.1 q hq2 (hk.trans hp.symm)
        simp [this]

theorem node_value_append (document : yaml_document_t) (k : String)
    (a b : List yaml_node_pair_t) :
    node_value document k (a ++ b) = (node_value document k b).or (node_value document k a) := by
  induction a with
  | nil => simp [node_value]
  | cons p rest ih =>
    simp only [List.cons_append, node_value, List.append_eq]
    rw [ih]
    cases node_value document k b <;> cases node_value document k rest <;> simp

theorem node_value_insert (document : yaml_document_t) (k kp x : String)
    (front back : List yaml_node_pair_t) (pp : yaml_node_pair_t)
    (hk : pair_key document pp = some kp) (hx : pair_value document pp = some x) :
    node_value document k (front ++ pp :: back) =
      if kp = k then (node_value document k back).or (some x)
      else node_value document k (front ++ back) := by
  rw [node_value_append, node_value_append]
  simp only [node_value, hk, hx, Option.some.injEq]
  cases node_value document k back <;> simp
  split_ifs <;> simp

theorem pair_good_resolves (env : Env) (document : yaml_document_t) (p : yaml_node_pair_t)
    (h : pair_good env document p = true) : pair_resolves document p = true := by
  unfold pair_good at h
  unfold pair_resolves
  cases hk : pair_key document p with
  | none => simp [hk] at h
  | some k =>
    cases hx : pair_value document p with
    | none => simp [hk, hx] at h
    | some x =>
      unfold pair_key at hk
      unfold pair_value at hx
      cases h1 : yaml_document_get_node document p.key with
      | none => simp [h1] at hk
      | some a =>
        cases h2 : yaml_document_get_node document p.value with
        | none => simp [h2] at hx
        | some b => rfl

/-! ## add_group and the loops around it -/

theorem calls_of_append (a b : List Event) : calls_of (a ++ b) = calls_of a ++ calls_of b := by
  induction a with
  | nil => rfl
  | cons e rest ih => cases e <;> simp [calls_of, ih]

theorem logs_of_append (a b : List Event) : logs_of (a ++ b) = logs_of a ++ logs_of b := by
  induction a with
  | nil => rfl
  | cons e rest ih => cases e <;> simp [logs_of, ih]

theorem yaml_document_get_node_mem (document : yaml_document_t) (i : Int) (n : yaml_node_t)
    (h : yaml_document_get_node document i = some n) : n ∈ document := by
  unfold yaml_document_get_node at h
  split_ifs at h
  exact List.get?_mem h

/-- In a well-formed document every item of a sequence node is a node of the document whose
own indices resolve. -/
theorem document_wf_items (document : yaml_document_t) (hwf : document_wf document = true)
    (i : Int) (mark : yaml_mark_t) (items : List Int)
    (h : yaml_document_get_node document i = some ⟨.sequence items, mark⟩) :
    ∀ item ∈ items, ∃ n, yaml_document_get_node document item = some n ∧
      node_wf document n = true := by
  intro item hitem
  have hseq := List.all_eq_true.1 hwf _ (yaml_document_get_node_mem document i _ h)
  simp only [node_wf, List.all_eq_true] at hseq
  obtain ⟨n, hn⟩ := Option.isSome_iff_exists.1 (hseq item hitem)
  exact ⟨n, hn, List.all_eq_true.1 hwf _ (yaml_document_get_node_mem document item n hn)⟩

/-- What `add_service` does for an item whose indices resolve: it returns, it emits one
diagnostic, and it calls `mdns_group_add_service` exactly for an accepted descriptor. -/
theorem add_service_events (env : Env) (lib : Lib) (group : String) (index : Int)
    (document : yaml_document_t) (item : yaml_node_t) (tr : List Event)
    (hwf : node_wf document item = true) :
    (add_service env lib group index document (some item) tr).1 = .returned ∧
    calls_of (add_service env lib group index document (some item) tr).2 =
      (match accepted_service env lib group index document (some item) with
        | some ms => [Call.mdns_group_add_service group ms]
        | none => []) ∧
    (logs_of (add_service env lib group index document (some item) tr).2).length = 1 := by
  unfold accepted_service
  cases hc : add_service_check env group index document (some item) with
  | die e =>
    have := add_service_check_die env group index document item e hc
    rw [hwf] at this
    cases this
  | stop e =>
    have hw := add_service_check_stop_warning env group index document (some item) e hc
    rw [add_service_of_stop env lib group index document (some item) tr e hc]
    cases e with
    | call c r => simp [is_warning] at hw
    | log fn fmt args => exact ⟨rfl, rfl, rfl⟩
    | log_init d => simp [is_warning] at hw
    | daemon => simp [is_warning] at hw
  | next ms =>
    unfold add_service
    rw [hc]
    simp only
    by_cases hinit : lib.mdns_service_init ms = -1
    · simp [hinit, calls_of, logs_of]
    · by_cases hadd : lib.mdns_group_add_service tr group ms = -1
      · simp [hinit, hadd, calls_of, logs_of]
      · simp only [if_neg hinit, if_neg hadd]
        split <;> simp [calls_of, logs_of]

theorem add_service_items_events (env : Env) (lib : Lib) (group : String)
    (document : yaml_document_t) (items : List Int) :
    ∀ (i : Int) (tr : List Event),
      (∀ item ∈ items, ∃ n, yaml_document_get_node document item = some n ∧
        node_wf document n = true) →
      (add_service_items env lib group document i items tr).1 = .returned ∧
      calls_of (add_service_items env lib group document i items tr).2 =
        accepted_calls env lib group document i items ∧
      (logs_of (add_service_items env lib group document i items tr).2).length =
        items.length := by
  induction items with
  | nil => intro i tr _; exact ⟨rfl, rfl, rfl⟩
  | cons item rest ih =>
    intro i tr hwf
    obtain ⟨n, hn, hnwf⟩ := hwf item (List.mem_cons_self _ _)
    obtain ⟨h1, h2, h3⟩ := add_service_events env lib group i document n tr hnwf
    have hrest := fun t => ih (i + 1) t (fun it hit => hwf it (List.mem_cons_of_mem _ hit))
    unfold add_service_items accepted_calls
    rw [hn]
    cases hr : add_service env lib group i document (some n) tr with
    | mk ex evs =>
      rw [hr] at h1 h2 h3
      simp only at h1 h2 h3
      subst h1
      simp only
      obtain ⟨r1, r2, r3⟩ := hrest (tr ++ evs)
      refine ⟨r1, ?_, ?_⟩
      · rw [calls_of_append, h2, r2]
      · rw [logs_of_append, List.length_append, h3, r3, List.length_cons, Nat.add_comm]

/-- What `add_group` does for an entry with a valid name and a sequence value when the
group can be defined and committed. -/
theorem add_group_valid_events (env : Env) (lib : Lib) (index : Int) (document : yaml_document_t)
    (pair : yaml_node_pair_t) (tr : List Event) (group : String) (len : Nat)
    (kmark vmark : yaml_mark_t) (items : List Int)
    (hwf : document_wf document = true)
    (hkey : yaml_document_get_node document pair.key = some ⟨.scalar group len, kmark⟩)
    (hlen : 0 < len ∧ len < MAXHOSTNAMELEN)
    (hvalue : yaml_document_get_node document pair.value = some ⟨.sequence items, vmark⟩)
    (hdefine : lib.mdns_group_add tr group ≠ -1)
    (hcommit : ∀ t, lib.mdns_group_commit t group ≠ -1) :
    (add_group env lib index document pair tr).1 = .returned ∧
    calls_of (add_group env lib index document pair tr).2 =
      .mdns_group_add group ::
        (accepted_calls env lib group document 1 items ++ [.mdns_group_commit group]) ∧
    (logs_of (add_group env lib index document pair tr).2).length = items.length := by
  have hitems := document_wf_items document hwf pair.value vmark items hvalue
  obtain ⟨s1, s2, s3⟩ := add_service_items_events env lib group document items 1
    (tr ++ [.call (.mdns_group_add group) (lib.mdns_group_add tr group)]) hitems
  unfold add_group
  rw [hkey, hvalue]
  simp only [if_neg (Nat.pos_iff_ne_zero.1 hlen.1), if_neg (Nat.not_le.2 hlen.2),
    if_neg hdefine, s1, if_neg (hcommit _)]
  refine ⟨trivial, ?_, ?_⟩
  · simp only [calls_of, List.append_eq, calls_of_append, s2]
  · simp only [logs_of, List.append_eq, logs_of_append, s3, List.length_append, List.length_nil, Nat.add_zero]


/-- What `add_group` does for an entry that it skips. -/
theorem add_group_skipped_events (env : Env) (lib : Lib) (index : Int) (document : yaml_document_t)
    (pair : yaml_node_pair_t) (rest : List yaml_node_pair_t) (tr : List Event)
    (key value : yaml_node_t)
    (hkey : yaml_document_get_node document pair.key = some key)
    (hvalue : yaml_document_get_node document pair.value = some value)
    (hbad : nonempty_scalar key = none ∨
      (∃ group len, key.data = .scalar group len ∧ MAXHOSTNAMELEN ≤ len) ∨
      (∀ items, value.data ≠ .sequence items)) :
    rejected (add_group env lib index document pair tr) ∧
    calls_of (add_group env lib index document pair tr).2 = [] ∧
    main_groups env lib document index (pair :: rest) tr =
      ((main_groups env lib document (index + 1) rest
          (tr ++ (add_group env lib index document pair tr).2)).1,
        (add_group env lib index document pair tr).2 ++
          (main_groups env lib document (index + 1) rest
            (tr ++ (add_group env lib index document pair tr).2)).2) := by
  have hrej : rejected (add_group env lib index document pair tr) ∧
      calls_of (add_group env lib index document pair tr).2 = [] := by
    unfold add_group rejected
    rw [hkey, hvalue]
    obtain ⟨kdata, km⟩ := key
    obtain ⟨vdata, vm⟩ := value
    cases kdata with
    | scalar group len =>
      by_cases h0 : len = 0
      · simp [h0, is_warning, calls_of]
      · by_cases hlong : MAXHOSTNAMELEN ≤ len
        · simp [h0, hlong, is_warning, calls_of]
        · simp only [if_neg h0, if_neg hlong]
          cases vdata with
          | sequence items =>
            rcases hbad with hb | hb | hb
            · simp [nonempty_scalar, h0] at hb
            · obtain ⟨g, l, hgl, hl⟩ := hb
              cases hgl
              exact absurd hl hlong
            · exact absurd rfl (hb items)
          | no_node => simp [is_warning, calls_of]
          | scalar v l => simp [is_warning, calls_of]
          | mapping ps => simp [is_warning, calls_of]
    | no_node => simp [is_warning, calls_of]
    | sequence items => simp [is_warning, calls_of]
    | mapping ps => simp [is_warning, calls_of]
  refine ⟨hrej.1, hrej.2, ?_⟩
  obtain ⟨hret, _⟩ := hrej.1
  rw [main_groups]
  cases hr : add_group env lib index document pair tr with
  | mk ex evs =>
    rw [hr] at hret
    simp only at hret
    subst hret
    rfl


theorem accepted_calls_names (env : Env) (lib : Lib) (group : String)
    (document : yaml_document_t) (items : List Int) :
    ∀ (i : Int), ∀ c ∈ accepted_calls env lib group document i items,
      ∃ ms, c = Call.mdns_group_add_service group ms := by
  induction items with
  | nil => intro i c hc; simp [accepted_calls] at hc
  | cons item rest ih =>
    intro i c hc
    unfold accepted_calls at hc
    rcases List.mem_append.1 hc with h | h
    · split at h
      · rename_i ms _
        exact ⟨ms, List.mem_singleton.1 h⟩
      · cases h
    · exact ih (i + 1) c h

/-- The libmdns calls of `add_group` in a well-formed document, when groups can be
defined and committed: those of one group for an entry that defines a group, none for
an entry that is skipped. -/
theorem add_group_calls (env : Env) (lib : Lib) (index : Int) (document : yaml_document_t)
    (pair : yaml_node_pair_t) (tr : List Event)
    (hwf : document_wf document = true) (hpair : pair_resolves document pair = true)
    (hdefine : ∀ t g, lib.mdns_group_add t g ≠ -1)
    (hcommit : ∀ t g, lib.mdns_group_commit t g ≠ -1) :
    (add_group env lib index document pair tr).1 = .returned ∧
    (match entry_group document pair with
      | some h => ∃ svcs, (∀ c ∈ svcs, ∃ ms, c = Call.mdns_group_add_service h ms) ∧
          calls_of (add_group env lib index document pair tr).2 =
            Call.mdns_group_add h :: (svcs ++ [Call.mdns_group_commit h])
      | none => calls_of (add_group env lib index document pair tr).2 = []) := by
  unfold pair_resolves at hpair
  simp only [Bool.and_eq_true] at hpair
  obtain ⟨key, hkey⟩ := Option.isSome_iff_exists.1 hpair.1
  obtain ⟨value, hvalue⟩ := Option.isSome_iff_exists.1 hpair.2
  have hskip : ∀ (_ : nonempty_scalar key = none ∨
        (∃ group len, key.data = .scalar group len ∧ MAXHOSTNAMELEN ≤ len) ∨
        (∀ items, value.data ≠ .sequence items)), entry_group document pair = none →
      (add_group env lib index document pair tr).1 = .returned ∧
      (match entry_group document pair with
        | some h => ∃ svcs, (∀ c ∈ svcs, ∃ ms, c = Call.mdns_group_add_service h ms) ∧
            calls_of (add_group env lib index document pair tr).2 =
              Call.mdns_group_add h :: (svcs ++ [Call.mdns_group_commit h])
        | none => calls_of (add_group env lib index document pair tr).2 = []) := by
    intro hbad hnone
    obtain ⟨h1, h2, _⟩ :=
      add_group_skipped_events env lib index document pair [] tr key value hkey hvalue hbad
    rw [hnone]
    exact ⟨h1.1, h2⟩
  obtain ⟨kdata, km⟩ := key
  obtain ⟨vdata, vm⟩ := value
  cases kdata with
  | scalar group len =>
    by_cases h0 : len = 0
    · exact hskip (Or.inl (by simp [nonempty_scalar, h0])) (by
        unfold entry_group; rw [hkey, hvalue]; cases vdata <;> simp [h0])
    · by_cases hlong : MAXHOSTNAMELEN ≤ len
      · exact hskip (Or.inr (Or.inl ⟨group, len, rfl, hlong⟩)) (by
          unfold entry_group; rw [hkey, hvalue]; cases vdata <;> simp [hlong])
      · cases vdata with
        | sequence items =>
          have hg : entry_group document pair = some group := by
            unfold entry_group; rw [hkey, hvalue]; simp [h0, hlong]
          obtain ⟨e1, e2, _⟩ := add_group_valid_events env lib index document pair tr group len
            km vm items hwf hkey ⟨Nat.pos_of_ne_zero h0, Nat.not_le.1 hlong⟩ hvalue
            (hdefine tr group) (fun t => hcommit t group)
          rw [hg]
          exact ⟨e1, accepted_calls env lib group document 1 items,
            accepted_calls_names env lib group document items 1, e2⟩
        | no_node =>
          exact hskip (Or.inr (Or.inr (fun _ h => nomatch h))) (by
            unfold entry_group; rw [hkey, hvalue])
        | scalar v l =>
          exact hskip (Or.inr (Or.inr (fun _ h => nomatch h))) (by
            unfold entry_group; rw [hkey, hvalue])
        | mapping ps =>
          exact hskip (Or.inr (Or.inr (fun _ h => nomatch h))) (by
            unfold entry_group; rw [hkey, hvalue])
  | no_node =>
    exact hskip (Or.inl rfl) (by unfold entry_group; rw [hkey, hvalue])
  | sequence items =>
    exact hskip (Or.inl rfl) (by unfold entry_group; rw [hkey, hvalue])
  | mapping ps =>
    exact hskip (Or.inl rfl) (by unfold entry_group; rw [hkey, hvalue])

theorem group_calls_filter (g h : String) (svcs : List Call)
    (hs : ∀ c ∈ svcs, ∃ ms, c = Call.mdns_group_add_service h ms) :
    (Call.mdns_group_add h :: (svcs ++ [Call.mdns_group_commit h])).filter (call_names g) =
      if h = g then Call.mdns_group_add h :: (svcs ++ [Call.mdns_group_commit h]) else [] := by
  have hall : ∀ c ∈ Call.mdns_group_add h :: (svcs ++ [Call.mdns_group_commit h]),
      call_names g c = decide (h = g) := by
    intro c hc
    rcases List.mem_cons.1 hc with rfl | hc
    · rfl
    · rcases List.mem_append.1 hc with hc | hc
      · obtain ⟨ms, rfl⟩ := hs c hc
        rfl
      · rw [List.mem_singleton.1 hc]
        rfl
  by_cases hg : h = g
  · rw [if_pos hg]
    exact List.filter_eq_self.2 (fun c hc => by rw [hall c hc]; simp [hg])
  · rw [if_neg hg]
    exact List.filter_eq_nil_iff.2 (fun c hc => by rw [hall c hc]; simp [hg])

theorem main_groups_calls (env : Env) (lib : Lib) (document : yaml_document_t) (g : String)
    (hwf : document_wf document = true)
    (hdefine : ∀ t g, lib.mdns_group_add t g ≠ -1)
    (hcommit : ∀ t g, lib.mdns_group_commit t g ≠ -1) (pairs : List yaml_node_pair_t) :
    ∀ (i : Int) (tr : List Event), pairs.all (pair_resolves document) = true →
      (main_groups env lib document i pairs tr).1 = .returned ∧
      ((pairs.map (entry_group document)).count (some g) = 0 →
        (calls_of (main_groups env lib document i pairs tr).2).filter (call_names g) = []) ∧
      ((pairs.map (entry_group document)).count (some g) = 1 →
        one_group g (calls_of (main_groups env lib document i pairs tr).2)) := by
  induction pairs with
  | nil =>
    intro i tr _
    refine ⟨rfl, fun _ => rfl, fun h => ?_⟩
    simp at h
  | cons p rest ih =>
    intro i tr hres
    simp only [List.all_cons, Bool.and_eq_true] at hres
    obtain ⟨a1, a2⟩ := add_group_calls env lib i document p tr hwf hres.1 hdefine hcommit
    rw [main_groups]
    cases hr : add_group env lib i document p tr with
    | mk ex evs =>
      rw [hr] at a1 a2
      simp only at a1 a2
      subst a1
      simp only
      obtain ⟨r1, r2, r3⟩ := ih (i + 1) (tr ++ evs) hres.2
      simp only [calls_of_append, List.filter_append, List.map_cons, List.count_cons]
      by_cases hg : entry_group document p = some g
      · rw [hg] at a2
        simp only at a2
        obtain ⟨svcs, hs, hc⟩ := a2
        have hf := group_calls_filter g g svcs hs
        rw [if_pos rfl, ← hc] at hf
        simp only [hg, beq_self_eq_true, if_true]
        refine ⟨r1, fun h => by omega, fun h => ?_⟩
        have h0 : (rest.map (entry_group document)).count (some g) = 0 := by omega
        refine ⟨svcs, hs, ?_⟩
        rw [List.filter_append, r2 h0, hf, hc, List.append_nil]
      · have hf : (calls_of evs).filter (call_names g) = [] := by
          cases he : entry_group document p with
          | none => rw [he] at a2; simp only at a2; rw [a2]; rfl
          | some h =>
            rw [he] at a2 hg
            simp only at a2
            obtain ⟨svcs, hs, hc⟩ := a2
            have hne : h ≠ g := fun e => hg (by rw [e])
            rw [hc, group_calls_filter g h svcs hs, if_neg hne]
        have hb : (entry_group document p == some g) = false := by
          simpa using hg
        simp only [hb, Bool.false_eq_true, if_false, Nat.add_zero, hf, List.nil_append]
        refine ⟨r1, r2, fun h => ?_⟩
        obtain ⟨svcs, hs, hc⟩ := r3 h
        refine ⟨svcs, hs, ?_⟩
        rw [List.filter_append, hf, List.nil_append, hc]

theorem main_initialise_calls (lib : Lib) (debug initialised : Bool) (tr : List Event)
    (g : String) (hopen : ∀ t, lib.mdns_open t ≠ -1) :
    (main_initialise lib debug initialised tr).1 = .returned ∧
    (calls_of (main_initialise lib debug initialised tr).2).filter (call_names g) = [] := by
  unfold main_initialise
  cases initialised with
  | true => exact ⟨rfl, rfl⟩
  | false =>
    simp only [Bool.false_eq_true, if_false, if_neg (hopen tr)]
    cases debug <;> exact ⟨trivial, rfl⟩

theorem document_wf_root (document : yaml_document_t) (hwf : document_wf document = true)
    (pairs : List yaml_node_pair_t) (mark : yaml_mark_t)
    (h : yaml_document_get_root_node document = some ⟨.mapping pairs, mark⟩) :
    pairs.all (pair_resolves document) = true := by
  unfold yaml_document_get_root_node at h
  have hmem : (⟨.mapping pairs, mark⟩ : yaml_node_t) ∈ document := List.mem_of_mem_head? h
  have := List.all_eq_true.1 hwf _ hmem
  simpa [node_wf] using this

theorem main_load_calls (env : Env) (lib : Lib) (debug : Bool) (config : String) (g : String)
    (hopen : ∀ t, lib.mdns_open t ≠ -1)
    (hdefine : ∀ t g, lib.mdns_group_add t g ≠ -1)
    (hcommit : ∀ t g, lib.mdns_group_commit t g ≠ -1) (stream : List yaml_document_t) :
    ∀ (initialised : Bool) (tr : List Event),
      (∀ d ∈ stream, document_wf d = true) →
      (∀ d ∈ stream, ∃ pairs mark, yaml_document_get_root_node d = some ⟨.mapping pairs, mark⟩) →
      (main_load env lib debug config (stream.map some) initialised tr).1 = .returned ∧
      ((stream_groups stream).count (some g) = 0 →
        (calls_of (main_load env lib debug config (stream.map some) initialised tr).2).filter
          (call_names g) = []) ∧
      ((stream_groups stream).count (some g) = 1 →
        one_group g
          (calls_of (main_load env lib debug config (stream.map some) initialised tr).2)) := by
  induction stream with
  | nil =>
    intro initialised tr _ _
    refine ⟨rfl, fun _ => rfl, fun h => ?_⟩
    simp [stream_groups] at h
  | cons d rest ih =>
    intro initialised tr hwf hroot
    obtain ⟨pairs, mark, hr⟩ := hroot d (List.mem_cons_self _ _)
    have hdwf := hwf d (List.mem_cons_self _ _)
    have hres := document_wf_root d hdwf pairs mark hr
    obtain ⟨o1, o2⟩ := main_initialise_calls lib debug initialised tr g hopen
    have hdg : document_groups d = pairs.map (entry_group d) := by
      unfold document_groups; rw [hr]
    simp only [List.map_cons, main_load, hr, o1, stream_groups, hdg, List.count_append]
    obtain ⟨g1, g2, g3⟩ := main_groups_calls env lib d g hdwf hdefine hcommit pairs 1
      (tr ++ (main_initialise lib debug initialised tr).2) hres
    simp only [g1]
    obtain ⟨r1, r2, r3⟩ := ih true
      (tr ++ ((main_initialise lib debug initialised tr).2 ++
        (main_groups env lib d 1 pairs (tr ++ (main_initialise lib debug initialised tr).2)).2))
      (fun x hx => hwf x (List.mem_cons_of_mem _ hx))
      (fun x hx => hroot x (List.mem_cons_of_mem _ hx))
    refine ⟨r1, fun h => ?_, fun h => ?_⟩
    · have h1 : (pairs.map (entry_group d)).count (some g) = 0 := by omega
      have h2 : (stream_groups rest).count (some g) = 0 := by omega
      simp only [calls_of_append, List.filter_append, o2, g2 h1, r2 h2, List.append_nil]
    · by_cases h1 : (pairs.map (entry_group d)).count (some g) = 0
      · have h2 : (stream_groups rest).count (some g) = 1 := by omega
        obtain ⟨svcs, hs, hc⟩ := r3 h2
        refine ⟨svcs, hs, ?_⟩
        simp only [calls_of_append, List.filter_append, o2, g2 h1, hc, List.nil_append]
      · have h1b : (pairs.map (entry_group d)).count (some g) = 1 := by omega
        have h2 : (stream_groups rest).count (some g) = 0 := by omega
        obtain ⟨svcs, hs, hc⟩ := g3 h1b
        refine ⟨svcs, hs, ?_⟩
        simp only [calls_of_append, List.filter_append, o2, r2 h2, hc, List.nil_append,
          List.append_nil]

theorem one_group_count (g : String) (calls : List Call) (h : one_group g calls) :
    calls.count (Call.mdns_group_commit g) = 1 := by
  obtain ⟨svcs, hs, hf⟩ := h
  have hc : call_names g (Call.mdns_group_commit g) = true := by simp [call_names]
  rw [← List.count_filter hc, hf]
  have h0 : svcs.count (Call.mdns_group_commit g) = 0 := by
    rw [List.count_eq_zero]
    intro hmem
    obtain ⟨ms, hms⟩ := hs _ hmem
    cases hms
  simp [List.count_cons, List.count_append, h0]

theorem one_group_last (g : String) (calls : List Call) (h : one_group g calls)
    (front back : List Call) (hsplit : calls = front ++ Call.mdns_group_commit g :: back) :
    ∀ c ∈ back, call_names g c = false := by
  obtain ⟨svcs, hs, hf⟩ := h
  have hc : call_names g (Call.mdns_group_commit g) = true := by simp [call_names]
  rw [hsplit, List.filter_append, List.filter_cons, if_pos hc] at hf
  have hnil : back.filter (call_names g) = [] := by
    rcases List.eq_nil_or_concat (back.filter (call_names g)) with hb | ⟨L, y, hb⟩
    · exact hb
    · exfalso
      rw [hb] at hf
      have hf2 : (front.filter (call_names g) ++ Call.mdns_group_commit g :: L) ++ [y] =
          (Call.mdns_group_add g :: svcs) ++ [Call.mdns_group_commit g] := by
        simpa using hf
      obtain ⟨h1, _⟩ := List.append_inj' hf2 rfl
      have hmem : Call.mdns_group_commit g ∈ Call.mdns_group_add g :: svcs := by
        rw [← h1]; simp
      rcases List.mem_cons.1 hmem with hx | hx
      · cases hx
      · obtain ⟨ms, hms⟩ := hs _ hx
        cases hms
  intro c hcm
  by_contra hn
  have : c ∈ back.filter (call_names g) := List.mem_filter.2 ⟨hcm, by simpa using hn⟩
  rw [hnil] at this
  cases this

theorem strtoll_digits_all (ds : List Char) (h : ∀ c ∈ ds, c.isDigit = true) :
    ∀ acc, strtoll_digits ds acc =
      (ds.foldl (fun a c => a * 10 + (c.toNat - 48)) acc, []) := by
  induction ds with
  | nil => intro acc; rfl
  | cons c cs ih =>
    intro acc
    have hc := h c (List.mem_cons_self _ _)
    simp only [strtoll_digits, hc, if_true, List.foldl_cons]
    exact ih (fun x hx => h x (List.mem_cons_of_mem _ hx)) _

theorem isspace_of_isDigit (c : Char) (h : c.isDigit = true) : isspace c = false := by
  cases hs : isspace c with
  | false => rfl
  | true =>
    exfalso
    simp only [isspace, Bool.or_eq_true, decide_eq_true_eq] at hs
    rcases hs with ((((hs | hs) | hs) | hs) | hs) | hs <;> (subst hs; revert h; decide)

theorem strtoll_decimal (c : Char) (cs : List Char) (h : ∀ x ∈ c :: cs, x.isDigit = true) :
    strtoll (c :: cs) =
      if LLONG_MAX < (decimal_value (c :: cs) : Int) then ⟨LLONG_MAX, true, [], true⟩
      else ⟨decimal_value (c :: cs), true, [], false⟩ := by
  have hc := h c (List.mem_cons_self _ _)
  have hsp := isspace_of_isDigit c hc
  have hminus : c ≠ '-' := by rintro rfl; revert hc; decide
  have hplus : c ≠ '+' := by rintro rfl; revert hc; decide
  have hd := strtoll_digits_all (c :: cs) h 0
  unfold strtoll
  simp only [List.dropWhile_cons, hsp, Bool.false_eq_true, if_false]
  have hsigned : (match c :: cs with
      | '-' :: r => (true, r)
      | '+' :: r => (false, r)
      | _ => (false, c :: cs)) = (false, c :: cs) := by
    split
    · rename_i heq; cases heq; exact absurd rfl hminus
    · rename_i heq; cases heq; exact absurd rfl hplus
    · rfl
  rw [hsigned]
  simp only [hc, if_true, hd, Bool.false_eq_true, if_false]
  have hnn : ¬ ((decimal_value (c :: cs) : Int) < LLONG_MIN) := by
    unfold LLONG_MIN; omega
  unfold decimal_value at hnn ⊢
  split_ifs <;> rfl

theorem strtonum_decimal (ds : List Char) (hne : ds ≠ [])
    (h : ∀ c ∈ ds, c.isDigit = true) :
    strtonum (String.mk ds) 0 UINT16_MAX =
      if decimal_value ds ≤ 65535 then .ok (decimal_value ds) else .error "too large" := by
  cases ds with
  | nil => exact absurd rfl hne
  | cons c cs =>
    have hs := strtoll_decimal c cs h
    simp only [strtonum]
    have hlist : (String.mk (c :: cs)).toList = c :: cs := rfl
    rw [hlist, hs]
    have hu : ¬ (UINT16_MAX < 0) := by decide
    rw [if_neg hu]
    by_cases hbig : LLONG_MAX < (decimal_value (c :: cs) : Int)
    · have hgt : ¬ decimal_value (c :: cs) ≤ 65535 := by
        unfold LLONG_MAX at hbig; omega
      simp only [if_pos hbig, if_neg hgt]
      simp [LLONG_MAX, LLONG_MIN]
    · simp only [if_neg hbig]
      have hnn : ¬ ((decimal_value (c :: cs) : Int) < 0) := by omega
      by_cases hle : decimal_value (c :: cs) ≤ 65535
      · have : ¬ (UINT16_MAX < (decimal_value (c :: cs) : Int)) := by
          unfold UINT16_MAX; omega
        simp [hle, hnn, this]
      · have : UINT16_MAX < (decimal_value (c :: cs) : Int) := by
          unfold UINT16_MAX; omega
        simp [hle, hnn, this]

/-! ## Further facts on add_service -/

theorem add_service_pair_die_log (env : Env) (group : String) (index : Int)
    (document : yaml_document_t) (i : Int) (p : yaml_node_pair_t) (v : service_vars) (e : Event)
    (h : add_service_pair env group index document i p v = .die e) :
    ∃ fmt args, e = .log .log_fatalx fmt args := by
  unfold add_service_pair at h
  repeat' split at h
  all_goals first
    | (cases h; exact ⟨_, _, rfl⟩)
    | cases h

theorem add_service_pairs_die_log (env : Env) (group : String) (index : Int)
    (document : yaml_document_t) (pairs : List yaml_node_pair_t) :
    ∀ (i : Int) (v : service_vars) (e : Event),
      add_service_pairs env group index document i pairs v = .die e →
        ∃ fmt args, e = .log .log_fatalx fmt args := by
  induction pairs with
  | nil => intro i v e h; simp [add_service_pairs] at h
  | cons p rest ih =>
    intro i v e h
    unfold add_service_pairs at h
    cases hstep : add_service_pair env group index document i p v with
    | next u => rw [hstep] at h; exact ih (i + 1) u e h
    | stop d => rw [hstep] at h; cases h
    | die d =>
      rw [hstep] at h
      cases h
      exact add_service_pair_die_log env group index document i p v e hstep

theorem add_service_check_die_log (env : Env) (group : String) (index : Int)
    (document : yaml_document_t) (item : Option yaml_node_t) (e : Event)
    (h : add_service_check env group index document item = .die e) :
    ∃ fmt args, e = .log .log_fatalx fmt args := by
  unfold add_service_check at h
  split at h
  · cases h; exact ⟨_, _, rfl⟩
  · split at h
    · split at h
      · cases h
        exact add_service_pairs_die_log _ _ _ _ _ _ _ _ (by assumption)
      · cases h
      · repeat' split at h
        all_goals cases h
    · cases h

/-- The libmdns calls of `add_service`, for any item: one `mdns_group_add_service` call
for an accepted descriptor, none otherwise. -/
theorem add_service_calls (env : Env) (lib : Lib) (group : String) (index : Int)
    (document : yaml_document_t) (item : Option yaml_node_t) (tr : List Event) :
    calls_of (add_service env lib group index document item tr).2 =
      (match accepted_service env lib group index document item with
        | some ms => [Call.mdns_group_add_service group ms]
        | none => []) := by
  unfold accepted_service add_service
  cases hc : add_service_check env group index document item with
  | die e =>
    obtain ⟨fmt, args, rfl⟩ := add_service_check_die_log env group index document item e hc
    rfl
  | stop e =>
    have hw := add_service_check_stop_warning env group index document item e hc
    cases e with
    | call c r => simp [is_warning] at hw
    | log fn fmt args => rfl
    | log_init d => simp [is_warning] at hw
    | daemon => simp [is_warning] at hw
  | next ms =>
    simp only
    by_cases hinit : lib.mdns_service_init ms = -1
    · simp [hinit, calls_of]
    · by_cases hadd : lib.mdns_group_add_service tr group ms = -1
      · simp [hinit, hadd, calls_of]
      · simp only [if_neg hinit, if_neg hadd]
        split <;> simp [calls_of]

/-- Two nodes that pass `add_service_check` with the same descriptors make `add_service`
issue the same libmdns calls. -/
theorem add_service_calls_congr (env : Env) (lib : Lib) (group : String) (index : Int)
    (document : yaml_document_t) (item1 item2 : Option yaml_node_t) (tr : List Event)
    (h : ∀ ms, add_service_check env group index document item1 = .next ms ↔
      add_service_check env group index document item2 = .next ms) :
    calls_of (add_service env lib group index document item1 tr).2 =
      calls_of (add_service env lib group index document item2 tr).2 := by
  rw [add_service_calls, add_service_calls]
  have : accepted_service env lib group index document item1 =
      accepted_service env lib group index document item2 := by
    unfold accepted_service
    cases h1 : add_service_check env group index document item1 with
    | next ms => rw [(h ms).1 h1]
    | stop e =>
      cases h2 : add_service_check env group index document item2 with
      | next ms => rw [(h ms).2 h2] at h1; cases h1
      | stop d => rfl
      | die d => rfl
    | die e =>
      cases h2 : add_service_check env group index document item2 with
      | next ms => rw [(h ms).2 h2] at h1; cases h1
      | stop d => rfl
      | die d => rfl
  rw [this]

theorem pair_good_of_unknown (env : Env) (document : yaml_document_t) (pp : yaml_node_pair_t)
    (k x : String) (hkey : pair_key document pp = some k) (hval : pair_value document pp = some x)
    (ha : k ≠ "address") (hp : k ≠ "port") : pair_good env document pp = true := by
  simp [pair_good, hkey, hval, ha, hp]

theorem node_descriptor_congr (env : Env) (group : String) (document : yaml_document_t)
    (pairs1 pairs2 : List yaml_node_pair_t) (s p : String)
    (hport : node_value document "port" pairs1 = node_value document "port" pairs2)
    (htext : node_value document "text" pairs1 = node_value document "text" pairs2)
    (hhost : node_value document "hostname" pairs1 = node_value document "hostname" pairs2)
    (haddr : node_value document "address" pairs1 = node_value document "address" pairs2) :
    node_descriptor env group document pairs1 s p =
      node_descriptor env group document pairs2 s p := by
  unfold node_descriptor node_port
  rw [hport, htext, hhost, haddr]

/-- Two lists of pairs that agree on whether every pair is acceptable and on the values
of the six recognized keys pass `add_service_check` alike. -/
theorem add_service_check_congr (env : Env) (group : String) (index : Int)
    (document : yaml_document_t) (mark : yaml_mark_t) (pairs1 pairs2 : List yaml_node_pair_t)
    (hgood : pairs1.all (pair_good env document) = pairs2.all (pair_good env document))
    (hval : ∀ k ∈ ["service", "protocol", "hostname", "address", "port", "text"],
      node_value document k pairs1 = node_value document k pairs2) (ms : mdns_service) :
    add_service_check env group index document (some ⟨.mapping pairs1, mark⟩) = .next ms ↔
      add_service_check env group index document (some ⟨.mapping pairs2, mark⟩) = .next ms := by
  rw [add_service_check_next_iff, add_service_check_next_iff, hgood,
    hval "service" (by simp), hval "protocol" (by simp), hval "hostname" (by simp),
    hval "address" (by simp)]
  have hd := fun s p => node_descriptor_congr env group document pairs1 pairs2 s p
    (hval "port" (by simp)) (hval "text" (by simp)) (hval "hostname" (by simp))
    (hval "address" (by simp))
  constructor
  · rintro ⟨h1, s, p, h2, h3, h4, h5, h6⟩
    exact ⟨h1, s, p, h2, h3, h4, h5, by rw [h6, hd]⟩
  · rintro ⟨h1, s, p, h2, h3, h4, h5, h6⟩
    exact ⟨h1, s, p, h2, h3, h4, h5, by rw [h6, hd]⟩

theorem node_value_of_mem_distinct (document : yaml_document_t) (k : String)
    (pairs : List yaml_node_pair_t) (hd : (pairs.filterMap (pair_key document)).Nodup)
    (q : yaml_node_pair_t) (hq : q ∈ pairs) (hk : pair_key document q = some k) :
    node_value document k pairs = pair_value document q := by
  induction pairs with
  | nil => cases hq
  | cons p rest ih =>
    have hrest : (rest.filterMap (pair_key document)).Nodup := by
      cases hp : pair_key document p with
      | none => simpa [List.filterMap_cons, hp] using hd
      | some kp =>
        rw [List.filterMap_cons, hp] at hd
        exact (List.nodup_cons.1 hd).2
    simp only [node_value]
    rcases List.mem_cons.1 hq with rfl | hq2
    · have hno : has_key document k rest = false := by
        unfold has_key
        rw [Bool.eq_false_iff]
        intro ht
        obtain ⟨r, hr, hrk⟩ := List.any_eq_true.1 ht
        simp only [beq_iff_eq] at hrk
        rw [List.filterMap_cons, hk] at hd
        exact (List.nodup_cons.1 hd).1 (List.mem_filterMap.2 ⟨r, hr, hrk⟩)
      rw [node_value_of_no_key document k rest hno]
      simp [hk]
    · have h1 := ih hrest hq2
      rw [h1]
      cases hv : pair_value document q with
      | some y => rfl
      | none =>
        have : pair_key document p ≠ some k := by
          intro hp
          rw [List.filterMap_cons, hp] at hd
          exact (List.nodup_cons.1 hd).1 (List.mem_filterMap.2 ⟨q, hq2, hk⟩)
        simp [this]

/-- With pairwise distinct scalar keys the value of a key does not depend on the order
of the pairs. -/
theorem node_value_perm (document : yaml_document_t) (k : String)
    (pairs1 pairs2 : List yaml_node_pair_t) (hperm : pairs1.Perm pairs2)
    (hd : (pairs1.filterMap (pair_key document)).Nodup) :
    node_value document k pairs1 = node_value document k pairs2 := by
  have hd2 : (pairs2.filterMap (pair_key document)).Nodup :=
    (hperm.filterMap (pair_key document)).nodup_iff.1 hd
  have key : ∀ (a b : List yaml_node_pair_t), a.Perm b →
      (a.filterMap (pair_key document)).Nodup → (b.filterMap (pair_key document)).Nodup →
      ∀ x, node_value document k a = some x → node_value document k b = some x := by
    intro a b hab _ hb x hx
    obtain ⟨q, hq, hqk, hqv⟩ := node_value_mem document k x a hx
    rw [node_value_of_mem_distinct document k b hb q (hab.mem_iff.1 hq) hqk, hqv]
  cases h1 : node_value document k pairs1 with
  | some x => exact (key pairs1 pairs2 hperm hd hd2 x h1).symm
  | none =>
    cases h2 : node_value document k pairs2 with
    | none => rfl
    | some y =>
      have := key pairs2 pairs1 hperm.symm hd2 hd y h2
      rw [h1] at this
      cases this

theorem all_pair_good_perm (env : Env) (document : yaml_document_t)
    (pairs1 pairs2 : List yaml_node_pair_t) (hperm : pairs1.Perm pairs2) :
    pairs1.all (pair_good env document) = pairs2.all (pair_good env document) := by
  rw [Bool.eq_iff_iff, List.all_eq_true, List.all_eq_true]
  exact ⟨fun h q hq => h q (hperm.mem_iff.2 hq), fun h q hq => h q (hperm.mem_iff.1 hq)⟩

/-- The libmdns calls of `add_group` in a well-formed document when groups can be defined
and committed. -/
theorem add_group_calls_exact (env : Env) (lib : Lib) (index : Int) (document : yaml_document_t)
    (pair : yaml_node_pair_t) (tr : List Event)
    (hwf : document_wf document = true) (hpair : pair_resolves document pair = true)
    (hdefine : ∀ t g, lib.mdns_group_add t g ≠ -1)
    (hcommit : ∀ t g, lib.mdns_group_commit t g ≠ -1) :
    (add_group env lib index document pair tr).1 = .returned ∧
    calls_of (add_group env lib index document pair tr).2 = entry_calls env lib document pair := by
  unfold pair_resolves at hpair
  simp only [Bool.and_eq_true] at hpair
  obtain ⟨key, hkey⟩ := Option.isSome_iff_exists.1 hpair.1
  obtain ⟨value, hvalue⟩ := Option.isSome_iff_exists.1 hpair.2
  have hskip : ∀ (_ : nonempty_scalar key = none ∨
        (∃ group len, key.data = .scalar group len ∧ MAXHOSTNAMELEN ≤ len) ∨
        (∀ items, value.data ≠ .sequence items)), entry_group document pair = none →
      (add_group env lib index document pair tr).1 = .returned ∧
      calls_of (add_group env lib index document pair tr).2 =
        entry_calls env lib document pair := by
    intro hbad hnone
    obtain ⟨h1, h2, _⟩ :=
      add_group_skipped_events env lib index document pair [] tr key value hkey hvalue hbad
    unfold entry_calls
    rw [hnone]
    exact ⟨h1.1, h2⟩
  obtain ⟨kdata, km⟩ := key
  obtain ⟨vdata, vm⟩ := value
  cases kdata with
  | scalar group len =>
    by_cases h0 : len = 0
    · exact hskip (Or.inl (by simp [nonempty_scalar, h0])) (by
        unfold entry_group; rw [hkey, hvalue]; cases vdata <;> simp [h0])
    · by_cases hlong : MAXHOSTNAMELEN ≤ len
      · exact hskip (Or.inr (Or.inl ⟨group, len, rfl, hlong⟩)) (by
          unfold entry_group; rw [hkey, hvalue]; cases vdata <;> simp [hlong])
      · cases vdata with
        | sequence items =>
          have hg : entry_group document pair = some group := by
            unfold entry_group; rw [hkey, hvalue]; simp [h0, hlong]
          have hi : entry_items document pair = items := by
            unfold entry_items; rw [hvalue]
          obtain ⟨e1, e2, _⟩ := add_group_valid_events env lib index document pair tr group len
            km vm items hwf hkey ⟨Nat.pos_of_ne_zero h0, Nat.not_le.1 hlong⟩ hvalue
            (hdefine tr group) (fun t => hcommit t group)
          unfold entry_calls
          rw [hg, hi]
          exact ⟨e1, e2⟩
        | no_node =>
          exact hskip (Or.inr (Or.inr (fun _ h => nomatch h))) (by
            unfold entry_group; rw [hkey, hvalue])
        | scalar v l =>
          exact hskip (Or.inr (Or.inr (fun _ h => nomatch h))) (by
            unfold entry_group; rw [hkey, hvalue])
        | mapping ps =>
          exact hskip (Or.inr (Or.inr (fun _ h => nomatch h))) (by
            unfold entry_group; rw [hkey, hvalue])
  | no_node =>
    exact hskip (Or.inl rfl) (by unfold entry_group; rw [hkey, hvalue])
  | sequence items =>
    exact hskip (Or.inl rfl) (by unfold entry_group; rw [hkey, hvalue])
  | mapping ps =>
    exact hskip (Or.inl rfl) (by unfold entry_group; rw [hkey, hvalue])

theorem main_groups_calls_exact (env : Env) (lib : Lib) (document : yaml_document_t)
    (hwf : document_wf document = true)
    (hdefine : ∀ t g, lib.mdns_group_add t g ≠ -1)
    (hcommit : ∀ t g, lib.mdns_group_commit t g ≠ -1) (pairs : List yaml_node_pair_t) :
    ∀ (i : Int) (tr : List Event), pairs.all (pair_resolves document) = true →
      (main_groups env lib document i pairs tr).1 = .returned ∧
      calls_of (main_groups env lib document i pairs tr).2 =
        entries_calls env lib document pairs := by
  induction pairs with
  | nil => intro i tr _; exact ⟨rfl, rfl⟩
  | cons p rest ih =>
    intro i tr hres
    simp only [List.all_cons, Bool.and_eq_true] at hres
    obtain ⟨a1, a2⟩ := add_group_calls_exact env lib i document p tr hwf hres.1 hdefine hcommit
    rw [main_groups]
    cases hr : add_group env lib i document p tr with
    | mk ex evs =>
      rw [hr] at a1 a2
      simp only at a1 a2
      subst a1
      simp only
      obtain ⟨r1, r2⟩ := ih (i + 1) (tr ++ evs) hres.2
      exact ⟨r1, by rw [calls_of_append, a2, r2, entries_calls]⟩

/-- When the loop over the entries runs to its end, entry number `k` (counted from 0) is
handed to `add_group` with the index `i + k`, after the events of the entries before. -/
theorem main_groups_segment (env : Env) (lib : Lib) (document : yaml_document_t)
    (pairs : List yaml_node_pair_t) :
    ∀ (i : Int) (tr : List Event),
      (main_groups env lib document i pairs tr).1 = .returned →
      ∀ (k : Nat) (pair : yaml_node_pair_t), pairs.get? k = some pair →
        ∃ pre post, (main_groups env lib document i pairs tr).2 =
          pre ++ (add_group env lib (i + k) document pair (tr ++ pre)).2 ++ post := by
  induction pairs with
  | nil => intro i tr _ k pair hk; simp at hk
  | cons p rest ih =>
    intro i tr hret k pair hk
    rw [main_groups] at hret ⊢
    cases hr : add_group env lib i document p tr with
    | mk ex evs =>
      rw [hr] at hret
      cases ex with
      | exited => simp at hret
      | returned =>
        simp only at hret ⊢
        cases k with
        | zero =>
          simp only [List.get?_cons_zero, Option.some.injEq] at hk
          subst hk
          refine ⟨[], (main_groups env lib document (i + 1) rest (tr ++ evs)).2, ?_⟩
          simp [hr]
        | succ j =>
          simp only [List.get?_cons_succ] at hk
          obtain ⟨pre, post, hpp⟩ := ih (i + 1) (tr ++ evs) hret j pair hk
          refine ⟨evs ++ pre, post, ?_⟩
          rw [hpp]
          have : i + 1 + (j : Int) = i + ((j + 1 : Nat) : Int) := by push_cast; ring
          rw [this]
          simp [List.append_assoc]

theorem accepted_calls_filterMap (env : Env) (lib : Lib) (group : String)
    (document : yaml_document_t) (i : Int) (items : List Int) :
    (accepted_calls env lib group document i items).filterMap defined_group = [] ∧
    (accepted_calls env lib group document i items).filterMap committed_group = [] := by
  constructor
  · rw [List.filterMap_eq_nil_iff]
    intro c hc
    obtain ⟨ms, rfl⟩ := accepted_calls_names env lib group document items i c hc
    rfl
  · rw [List.filterMap_eq_nil_iff]
    intro c hc
    obtain ⟨ms, rfl⟩ := accepted_calls_names env lib group document items i c hc
    rfl

theorem entries_calls_groups (env : Env) (lib : Lib) (document : yaml_document_t)
    (pairs : List yaml_node_pair_t) :
    (entries_calls env lib document pairs).filterMap defined_group =
      (pairs.map (entry_group document)).filterMap id ∧
    (entries_calls env lib document pairs).filterMap committed_group =
      (pairs.map (entry_group document)).filterMap id := by
  induction pairs with
  | nil => exact ⟨rfl, rfl⟩
  | cons p rest ih =>
    simp only [entries_calls, List.filterMap_append, List.map_cons, List.filterMap_cons, ih]
    unfold entry_calls
    cases hg : entry_group document p with
    | none => simp
    | some g =>
      obtain ⟨h1, h2⟩ := accepted_calls_filterMap env lib g document 1 (entry_items document p)
      simp [List.filterMap_append, h1, h2, defined_group, committed_group]

/-- The first loop of `main` on a stream of two documents whose roots are mappings, when
the session can be opened and the entries of both documents are processed to the end. -/
theorem main_load_two (env : Env) (lib : Lib) (debug : Bool) (config : String)
    (d1 d2 : yaml_document_t) (pairs1 pairs2 : List yaml_node_pair_t) (mark1 mark2 : yaml_mark_t)
    (tr : List Event)
    (hroot1 : yaml_document_get_root_node d1 = some ⟨.mapping pairs1, mark1⟩)
    (hroot2 : yaml_document_get_root_node d2 = some ⟨.mapping pairs2, mark2⟩)
    (hopen : (main_initialise lib debug false tr).1 = .returned)
    (h1 : (main_groups env lib d1 1 pairs1 (tr ++ (main_initialise lib debug false tr).2)).1 =
      .returned)
    (h2 : (main_groups env lib d2 1 pairs2 (tr ++ ((main_initialise lib debug false tr).2 ++
      (main_groups env lib d1 1 pairs1 (tr ++ (main_initialise lib debug false tr).2)).2))).1 =
      .returned) :
    main_load env lib debug config [some d1, some d2] false tr =
      (.returned, (main_initialise lib debug false tr).2 ++
        ((main_groups env lib d1 1 pairs1 (tr ++ (main_initialise lib debug false tr).2)).2 ++
          (main_groups env lib d2 1 pairs2 (tr ++ ((main_initialise lib debug false tr).2 ++
            (main_groups env lib d1 1 pairs1
              (tr ++ (main_initialise lib debug false tr).2)).2))).2)) := by
  simp only [main_load, hroot1, hroot2, hopen, h1]
  have hi : main_initialise lib debug true
      (tr ++ ((main_initialise lib debug false tr).2 ++
        (main_groups env lib d1 1 pairs1 (tr ++ (main_initialise lib debug false tr).2)).2)) =
      (.returned, []) := by
    simp [main_initialise]
  simp only [hi, List.append_nil, h2, List.nil_append, List.append_assoc]

theorem main_initialise_open (lib : Lib) (debug : Bool) (tr : List Event)
    (hopen : ∀ t, lib.mdns_open t ≠ -1) :
    (main_initialise lib debug false tr).1 = .returned ∧
    calls_of (main_initialise lib debug false tr).2 =
      [Call.mdns_open, Call.mdns_set_group_hook] := by
  unfold main_initialise
  simp only [Bool.false_eq_true, if_false, if_neg (hopen tr)]
  cases debug <;> exact ⟨trivial, rfl⟩

theorem add_service_items_group_calls (env : Env) (lib : Lib) (group : String)
    (document : yaml_document_t) (items : List Int) :
    ∀ (i : Int) (tr : List Event),
      ∀ c ∈ calls_of (add_service_items env lib group document i items tr).2,
        group_call c = true := by
  induction items with
  | nil => intro i tr c hc; simp [add_service_items, calls_of] at hc
  | cons item rest ih =>
    intro i tr c hc
    have hone : ∀ c ∈ calls_of (add_service env lib group i document
        (yaml_document_get_node document item) tr).2, group_call c = true := by
      intro c hc
      rw [add_service_calls] at hc
      split at hc
      · rw [List.mem_singleton.1 hc]; rfl
      · cases hc
    rw [add_service_items] at hc
    cases hr : add_service env lib group i document (yaml_document_get_node document item) tr with
    | mk ex evs =>
      rw [hr] at hc hone
      cases ex with
      | exited => exact hone c hc
      | returned =>
        simp only [calls_of_append, List.mem_append] at hc
        rcases hc with h | h
        · exact hone c h
        · exact ih (i + 1) (tr ++ evs) c h

theorem add_group_group_calls (env : Env) (lib : Lib) (index : Int) (document : yaml_document_t)
    (pair : yaml_node_pair_t) (tr : List Event) :
    ∀ c ∈ calls_of (add_group env lib index document pair tr).2, group_call c = true := by
  intro c hc
  unfold add_group at hc
  simp only at hc
  repeat' split at hc
  all_goals
    simp only [calls_of, calls_of_append, List.append_eq, List.mem_cons, List.mem_append,
      List.not_mem_nil, or_false] at hc
  all_goals first
    | (rcases hc with rfl | hc | rfl
       · rfl
       · exact add_service_items_group_calls _ _ _ _ _ _ _ c hc
       · rfl)
    | (rcases hc with rfl | hc
       · rfl
       · exact add_service_items_group_calls _ _ _ _ _ _ _ c hc)
    | (rw [hc]; rfl)

theorem main_groups_group_calls (env : Env) (lib : Lib) (document : yaml_document_t)
    (pairs : List yaml_node_pair_t) :
    ∀ (i : Int) (tr : List Event),
      ∀ c ∈ calls_of (main_groups env lib document i pairs tr).2, group_call c = true := by
  induction pairs with
  | nil => intro i tr c hc; simp [main_groups, calls_of] at hc
  | cons p rest ih =>
    intro i tr c hc
    have hone := add_group_group_calls env lib i document p tr
    rw [main_groups] at hc
    cases hr : add_group env lib i document p tr with
    | mk ex evs =>
      rw [hr] at hc hone
      cases ex with
      | exited => exact hone c hc
      | returned =>
        simp only [calls_of_append, List.mem_append] at hc
        rcases hc with h | h
        · exact hone c h
        · exact ih (i + 1) (tr ++ evs) c h

theorem main_load_group_calls (env : Env) (lib : Lib) (debug : Bool) (config : String)
    (stream : List (Option yaml_document_t)) :
    ∀ (tr : List Event),
      ∀ c ∈ calls_of (main_load env lib debug config stream true tr).2, group_call c = true := by
  induction stream with
  | nil => intro tr c hc; simp [main_load, calls_of] at hc
  | cons d rest ih =>
    intro tr c hc
    cases d with
    | none => simp [main_load, calls_of] at hc
    | some document =>
      rw [main_load] at hc
      have hi : main_initialise lib debug true tr = (.returned, []) := by
        simp [main_initialise]
      simp only [hi, List.append_nil, List.nil_append] at hc
      repeat' split at hc
      all_goals
        simp only [calls_of, calls_of_append, List.mem_append, List.not_mem_nil] at hc
      all_goals first
        | (rcases hc with h | h
           · exact main_groups_group_calls env lib document _ 1 tr c h
           · exact ih _ c h)
        | exact main_groups_group_calls env lib document _ 1 tr c hc

/-- When the stream starts with a document whose root is a mapping and the first loop of
`main` runs to its end, the session is opened exactly once, the hook is installed right
after, and both come before every other libmdns call of the loop. -/
theorem main_load_opens_once (env : Env) (lib : Lib) (debug : Bool) (config : String)
    (d : yaml_document_t) (rest : List (Option yaml_document_t)) (tr : List Event)
    (pairs : List yaml_node_pair_t) (mark : yaml_mark_t)
    (hroot : yaml_document_get_root_node d = some ⟨.mapping pairs, mark⟩)
    (hret : (main_load env lib debug config (some d :: rest) false tr).1 = .returned) :
    ∃ body, calls_of (main_load env lib debug config (some d :: rest) false tr).2 =
        Call.mdns_open :: Call.mdns_set_group_hook :: body ∧
      (∀ c ∈ body, group_call c = true) ∧
      (calls_of (main_load env lib debug config (some d :: rest) false tr).2).count
        Call.mdns_open = 1 := by
  rw [main_load] at hret ⊢
  simp only [hroot] at hret ⊢
  by_cases hopen : lib.mdns_open tr = -1
  · simp [main_initialise, hopen] at hret
  · have ho1 : (main_initialise lib debug false tr).1 = .returned := by
      simp only [main_initialise, Bool.false_eq_true, if_false, if_neg hopen]
    have ho2 : calls_of (main_initialise lib debug false tr).2 =
        [Call.mdns_open, Call.mdns_set_group_hook] := by
      simp only [main_initialise, Bool.false_eq_true, if_false, if_neg hopen]
      cases debug <;> rfl
    simp only [ho1] at hret ⊢
    have hbody : ∃ body, (∀ c ∈ body, group_call c = true) ∧
        calls_of (match (main_groups env lib d 1 pairs
            (tr ++ (main_initialise lib debug false tr).2)).1 with
          | Exit.exited => (Exit.exited, (main_initialise lib debug false tr).2 ++
              (main_groups env lib d 1 pairs (tr ++ (main_initialise lib debug false tr).2)).2)
          | Exit.returned =>
            ((main_load env lib debug config rest true
                (tr ++ ((main_initialise lib debug false tr).2 ++
                  (main_groups env lib d 1 pairs
                    (tr ++ (main_initialise lib debug false tr).2)).2))).1,
              (main_initialise lib debug false tr).2 ++
                (main_groups env lib d 1 pairs
                  (tr ++ (main_initialise lib debug false tr).2)).2 ++
                (main_load env lib debug config rest true
                  (tr ++ ((main_initialise lib debug false tr).2 ++
                    (main_groups env lib d 1 pairs
                      (tr ++ (main_initialise lib debug false tr).2)).2))).2)).2 =
          Call.mdns_open :: Call.mdns_set_group_hook :: body := by
      split
      · rename_i hex
        rw [hex] at hret
        cases hret
      · refine ⟨calls_of (main_groups env lib d 1 pairs
            (tr ++ (main_initialise lib debug false tr).2)).2 ++
          calls_of (main_load env lib debug config rest true
            (tr ++ ((main_initialise lib debug false tr).2 ++
              (main_groups env lib d 1 pairs
                (tr ++ (main_initialise lib debug false tr).2)).2))).2, ?_, ?_⟩
        · intro c hc
          rcases List.mem_append.1 hc with h | h
          · exact main_groups_group_calls env lib d pairs 1 _ c h
          · exact main_load_group_calls env lib debug config rest _ c h
        · simp only [calls_of_append, ho2]
          rfl
    obtain ⟨body, hb, hcalls⟩ := hbody
    refine ⟨body, hcalls, hb, ?_⟩
    rw [hcalls]
    have h0 : body.count Call.mdns_open = 0 := by
      rw [List.count_eq_zero]
      intro hmem
      have := hb _ hmem
      simp [group_call] at this
    simp [List.count_cons, h0]

/-- When every item resolves, item number `k` (counted from 0) of the sequence is handed
to `add_service` with the index `i + k`, after the events of the items before it, which
hold `k` diagnostics. -/
theorem add_service_items_segment (env : Env) (lib : Lib) (group : String)
    (document : yaml_document_t) (items : List Int) :
    ∀ (i : Int) (tr : List Event),
      (∀ item ∈ items, ∃ n, yaml_document_get_node document item = some n ∧
        node_wf document n = true) →
      ∀ (k : Nat) (item : Int), items.get? k = some item →
        ∃ pre post, (add_service_items env lib group document i items tr).2 =
          pre ++ (add_service env lib group (i + k) document
            (yaml_document_get_node document item) (tr ++ pre)).2 ++ post ∧
          (logs_of pre).length = k ∧ calls_of pre = accepted_calls env lib group document i
            (items.take k) := by
  induction items with
  | nil => intro i tr _ k item hk; simp at hk
  | cons first rest ih =>
    intro i tr hwf k item hk
    obtain ⟨n, hn, hnwf⟩ := hwf first (List.mem_cons_self _ _)
    obtain ⟨h1, h2, h3⟩ := add_service_events env lib group i document n tr hnwf
    rw [add_service_items, hn]
    cases hr : add_service env lib group i document (some n) tr with
    | mk ex evs =>
      rw [hr] at h1 h2 h3
      simp only at h1 h2 h3
      subst h1
      simp only
      cases k with
      | zero =>
        simp only [List.get?_cons_zero, Option.some.injEq] at hk
        subst hk
        refine ⟨[], (add_service_items env lib group document (i + 1) rest (tr ++ evs)).2,
          ?_, rfl, rfl⟩
        simp [hn, hr]
      | succ j =>
        simp only [List.get?_cons_succ] at hk
        obtain ⟨pre, post, hpp, hlog, hcalls⟩ := ih (i + 1) (tr ++ evs)
          (fun it hit => hwf it (List.mem_cons_of_mem _ hit)) j item hk
        refine ⟨evs ++ pre, post, ?_, ?_, ?_⟩
        · rw [hpp]
          have : i + 1 + (j : Int) = i + ((j + 1 : Nat) : Int) := by push_cast; ring
          rw [this]
          simp [List.append_assoc]
        · rw [logs_of_append, List.length_append, h3, hlog, Nat.add_comm]
        · rw [calls_of_append, h2, hcalls, List.take_succ_cons, accepted_calls, hn]

/-- The events of `add_group` for an entry with a valid name and a sequence value when the
group can be defined and committed: the definition, the events of the loop over the
items, the commit. -/
theorem add_group_valid_eq (env : Env) (lib : Lib) (index : Int) (document : yaml_document_t)
    (pair : yaml_node_pair_t) (tr : List Event) (group : String) (len : Nat)
    (kmark vmark : yaml_mark_t) (items : List Int)
    (hwf : document_wf document = true)
    (hkey : yaml_document_get_node document pair.key = some ⟨.scalar group len, kmark⟩)
    (hlen : 0 < len ∧ len < MAXHOSTNAMELEN)
    (hvalue : yaml_document_get_node document pair.value = some ⟨.sequence items, vmark⟩)
    (hdefine : lib.mdns_group_add tr group ≠ -1)
    (hcommit : ∀ t, lib.mdns_group_commit t group ≠ -1) :
    add_group env lib index document pair tr =
      (.returned, .call (.mdns_group_add group) (lib.mdns_group_add tr group) ::
        (add_service_items env lib group document 1 items
          (tr ++ [.call (.mdns_group_add group) (lib.mdns_group_add tr group)])).2 ++
        [.call (.mdns_group_commit group)
          (lib.mdns_group_commit
            (tr ++ .call (.mdns_group_add group) (lib.mdns_group_add tr group) ::
              (add_service_items env lib group document 1 items
                (tr ++ [.call (.mdns_group_add group) (lib.mdns_group_add tr group)])).2)
            group)]) := by
  have hitems := document_wf_items document hwf pair.value vmark items hvalue
  obtain ⟨s1, _, _⟩ := add_service_items_events env lib group document items 1
    (tr ++ [.call (.mdns_group_add group) (lib.mdns_group_add tr group)]) hitems
  unfold add_group
  rw [hkey, hvalue]
  simp only [if_neg (Nat.pos_iff_ne_zero.1 hlen.1), if_neg (Nat.not_le.2 hlen.2),
    if_neg hdefine, s1, if_neg (hcommit _)]

/-- In `add_group`, item number `k` (counted from 0) of the sequence is handed to
`add_service` with the index `k + 1`, after the definition of the group and the events of
the items before it. -/
theorem add_group_valid_segment (env : Env) (lib : Lib) (index : Int)
    (document : yaml_document_t) (pair : yaml_node_pair_t) (tr : List Event) (group : String)
    (len : Nat) (kmark vmark : yaml_mark_t) (items : List Int)
    (hwf : document_wf document = true)
    (hkey : yaml_document_get_node document pair.key = some ⟨.scalar group len, kmark⟩)
    (hlen : 0 < len ∧ len < MAXHOSTNAMELEN)
    (hvalue : yaml_document_get_node document pair.value = some ⟨.sequence items, vmark⟩)
    (hdefine : lib.mdns_group_add tr group ≠ -1)
    (hcommit : ∀ t, lib.mdns_group_commit t group ≠ -1) :
    ∀ (k : Nat) (item : Int), items.get? k = some item →
      ∃ pre post, (add_group env lib index document pair tr).2 =
        pre ++ (add_service env lib group ((k : Int) + 1) document
          (yaml_document_get_node document item) (tr ++ pre)).2 ++ post ∧
        (logs_of pre).length = k ∧
        calls_of pre = .mdns_group_add group ::
          accepted_calls env lib group document 1 (items.take k) := by
  intro k item hk
  have hitems := document_wf_items document hwf pair.value vmark items hvalue
  obtain ⟨pre, post, hpp, hlog, hcalls⟩ := add_service_items_segment env lib group document
    items 1 (tr ++ [.call (.mdns_group_add group) (lib.mdns_group_add tr group)]) hitems k item hk
  rw [add_group_valid_eq env lib index document pair tr group len kmark vmark items hwf hkey
    hlen hvalue hdefine hcommit]
  refine ⟨.call (.mdns_group_add group) (lib.mdns_group_add tr group) :: pre,
    post ++ [.call (.mdns_group_commit group)
      (lib.mdns_group_commit
        (tr ++ .call (.mdns_group_add group) (lib.mdns_group_add tr group) ::
          (add_service_items env lib group document 1 items
            (tr ++ [.call (.mdns_group_add group) (lib.mdns_group_add tr group)])).2)
        group)], ?_, ?_, ?_⟩
  · simp only
    rw [hpp]
    have : (1 : Int) + (k : Int) = (k : Int) + 1 := by ring
    rw [this]
    simp [List.append_assoc]
  · simpa [logs_of] using hlog
  · simp [calls_of, hcalls]

/-! ## Claims on add_service -/

/-- C1 (amended): a service mapping whose keys and values are all non-empty scalars with
pairwise distinct keys, with a `service` value, a `protocol` value "tcp" or "udp", a
`port` value that `strtonum` accepts, and both or neither of `hostname` and an `address`
that `inet_pton` accepts, makes `add_service` issue exactly one `mdns_group_add_service`
call for the enclosing group, provided `mdns_service_init` accepts the descriptor. The
descriptor holds the values of the node, the empty text when `text` is absent, and no
host override when `hostname` and `address` are absent. -/
theorem C1_valid_node_registered (env : Env) (lib : Lib) (group : String) (index : Int)
    (document : yaml_document_t) (mark : yaml_mark_t) (pairs : List yaml_node_pair_t)
    (tr : List Event) (s p x : String) (n : Int)
    (hscalars : ∀ q ∈ pairs, (pair_key document q).isSome ∧ (pair_value document q).isSome)
    (hdistinct : (pairs.map (pair_key document)).Nodup)
    (hservice : node_value document "service" pairs = some s)
    (hprotocol : node_value document "protocol" pairs = some p)
    (htcpudp : p = "tcp" ∨ p = "udp")
    (hport : node_value document "port" pairs = some x)
    (hparse : strtonum x 0 UINT16_MAX = .ok n)
    (hhost : (node_value document "hostname" pairs).isSome =
      (node_value document "address" pairs).isSome)
    (haddr : ∀ a, node_value document "address" pairs = some a → (env.inet_pton a).isSome = true)
    (hinit : lib.mdns_service_init ⟨group, s, p, n, (node_value document "text" pairs).getD "",
      node_value document "hostname" pairs,
      (node_value document "address" pairs).bind env.inet_pton⟩ ≠ -1) :
    (add_service env lib group index document (some ⟨.mapping pairs, mark⟩) tr).1 = .returned ∧
    calls_of (add_service env lib group index document (some ⟨.mapping pairs, mark⟩) tr).2 =
      [.mdns_group_add_service group ⟨group, s, p, n, (node_value document "text" pairs).getD "",
        node_value document "hostname" pairs,
        (node_value document "address" pairs).bind env.inet_pton⟩] ∧
    (0 ≤ n ∧ n ≤ 65535) ∧
    (has_key document "text" pairs = false → (node_value document "text" pairs).getD "" = "") ∧
    (has_key document "hostname" pairs = false → has_key document "address" pairs = false →
      node_value document "hostname" pairs = none ∧
      (node_value document "address" pairs).bind env.inet_pton = none) := by
  have hgood : pairs.all (pair_good env document) = true := by
    rw [List.all_eq_true]
    intro q hq
    obtain ⟨hk, hv⟩ := hscalars q hq
    obtain ⟨k, hk⟩ := Option.isSome_iff_exists.1 hk
    obtain ⟨y, hv⟩ := Option.isSome_iff_exists.1 hv
    have hnv := node_value_of_mem_nodup document k pairs hdistinct q hq hk
    rw [hv] at hnv
    unfold pair_good
    simp only [hk, hv, Bool.and_eq_true, Bool.or_eq_true, bne_iff_ne, ne_eq]
    constructor
    · by_cases hka : k = "address"
      · subst hka; exact Or.inr (haddr y hnv)
      · exact Or.inl hka
    · by_cases hkp : k = "port"
      · subst hkp
        rw [hport] at hnv
        cases hnv
        exact Or.inr (by rw [parse_port_of_ok x n hparse]; rfl)
      · exact Or.inl hkp
  have hms : node_descriptor env group document pairs s p =
      ⟨group, s, p, n, (node_value document "text" pairs).getD "",
        node_value document "hostname" pairs,
        (node_value document "address" pairs).bind env.inet_pton⟩ := by
    unfold node_descriptor node_port
    rw [hport]
    simp only [parse_port_of_ok x n hparse, Option.getD_some]
  have hcheck := (add_service_check_next_iff env group index document mark pairs
    (node_descriptor env group document pairs s p)).2
    ⟨hgood, s, p, hservice, hprotocol, htcpudp, hhost, rfl⟩
  rw [hms] at hcheck
  obtain ⟨h1, h2⟩ := add_service_of_next env lib group index document _ tr _ hcheck hinit
  refine ⟨h1, h2, strtonum_ok_range x 0 UINT16_MAX n hparse, ?_, ?_⟩
  · intro ht
    rw [node_value_of_no_key document "text" pairs ht]
    rfl
  · intro hh ha
    rw [node_value_of_no_key document "hostname" pairs hh,
      node_value_of_no_key document "address" pairs ha]
    exact ⟨rfl, rfl⟩

/-- C1, witness: the node `{service: ipp, protocol: tcp, port: "631"}` under group
"printer" yields the descriptor {ipp, tcp, 631, text "", no host override}. -/
theorem C1_valid_node_registered_witness :
    (add_service sample_env sample_lib "printer" 1 printer_document
      (some ⟨.mapping [⟨5, 6⟩, ⟨7, 8⟩, ⟨9, 10⟩], ⟨0, 12⟩⟩) []).1 = .returned ∧
    calls_of (add_service sample_env sample_lib "printer" 1 printer_document
      (some ⟨.mapping [⟨5, 6⟩, ⟨7, 8⟩, ⟨9, 10⟩], ⟨0, 12⟩⟩) []).2 =
      [.mdns_group_add_service "printer" ⟨"printer", "ipp", "tcp", 631, "", none, none⟩] :=
  have h := C1_valid_node_registered sample_env sample_lib "printer" 1 printer_document ⟨0, 12⟩
    [⟨5, 6⟩, ⟨7, 8⟩, ⟨9, 10⟩] [] "ipp" "tcp" "631" 631
    (by decide) (by decide) (by decide) (by decide) (by decide) (by decide) rfl (by decide)
    (fun a ha => nomatch (show (none : Option String) = some a from ha)) (by decide)
  ⟨h.1, h.2.1⟩

set_option maxRecDepth 100000 in
/-- C1, counterexample: the node `{service: <100 bytes>, protocol: tcp, port: "631"}` meets
every condition on the node, yet `add_service` makes no `mdns_group_add_service` call
when `mdns_service_init` reports a failure for it; `add_service` only warns. -/
theorem C1_counterexample :
    (∀ q ∈ [(⟨5, 6⟩ : yaml_node_pair_t), ⟨7, 8⟩, ⟨9, 10⟩],
      (pair_key long_label_document q).isSome ∧ (pair_value long_label_document q).isSome) ∧
    ([(⟨5, 6⟩ : yaml_node_pair_t), ⟨7, 8⟩, ⟨9, 10⟩].map (pair_key long_label_document)).Nodup ∧
    node_value long_label_document "service" [⟨5, 6⟩, ⟨7, 8⟩, ⟨9, 10⟩] = some label100 ∧
    node_value long_label_document "protocol" [⟨5, 6⟩, ⟨7, 8⟩, ⟨9, 10⟩] = some "tcp" ∧
    node_value long_label_document "port" [⟨5, 6⟩, ⟨7, 8⟩, ⟨9, 10⟩] = some "631" ∧
    strtonum "631" 0 UINT16_MAX = .ok 631 ∧
    node_value long_label_document "hostname" [⟨5, 6⟩, ⟨7, 8⟩, ⟨9, 10⟩] = none ∧
    node_value long_label_document "address" [⟨5, 6⟩, ⟨7, 8⟩, ⟨9, 10⟩] = none ∧
    add_service sample_env refusing_lib "printer" 1 long_label_document
      (yaml_document_get_node long_label_document 4) [] =
      (.returned, [.log .log_warnx "failed to initialise _%s._%s for group '%s'"
        [.str label100, .str "tcp", .str "printer"]]) ∧
    calls_of (add_service sample_env refusing_lib "printer" 1 long_label_document
      (yaml_document_get_node long_label_document 4) []).2 = [] :=
  ⟨by decide, by decide, by decide, by decide, by decide, rfl, by decide, by decide, by decide,
    by decide⟩

/-- C2: a service node without a `service` key is rejected by `add_service` (one warning,
normal return) and no libmdns call is made for it, whatever its other pairs are. -/
theorem C2_missing_service_rejected (env : Env) (lib : Lib) (group : String) (index : Int)
    (document : yaml_document_t) (item : yaml_node_t) (tr : List Event)
    (hwf : node_wf document item = true)
    (hno : ∀ pairs, item.data = .mapping pairs → has_key document "service" pairs = false) :
    rejected (add_service env lib group index document (some item) tr) ∧
      calls_of (add_service env lib group index document (some item) tr).2 = [] := by
  apply add_service_rejected env lib group index document item tr hwf
  intro ms hc
  obtain ⟨data, mark⟩ := item
  cases data with
  | mapping pairs =>
    obtain ⟨_, s, p, hs, _⟩ :=
      (add_service_check_next_iff env group index document mark pairs ms).1 hc
    rw [node_value_of_no_key document "service" pairs (hno pairs rfl)] at hs
    cases hs
  | no_node => simp [add_service_check] at hc
  | scalar v l => simp [add_service_check] at hc
  | sequence items => simp [add_service_check] at hc

/-- C2, witness: `{protocol: tcp, port: "631"}`, the printer node without its first pair. -/
theorem C2_missing_service_rejected_witness :
    rejected (add_service sample_env sample_lib "printer" 1 printer_document
      (some ⟨.mapping [⟨7, 8⟩, ⟨9, 10⟩], ⟨0, 12⟩⟩) []) ∧
    calls_of (add_service sample_env sample_lib "printer" 1 printer_document
      (some ⟨.mapping [⟨7, 8⟩, ⟨9, 10⟩], ⟨0, 12⟩⟩) []).2 = [] :=
  C2_missing_service_rejected sample_env sample_lib "printer" 1 printer_document
    ⟨.mapping [⟨7, 8⟩, ⟨9, 10⟩], ⟨0, 12⟩⟩ [] (by decide)
    (fun pairs h => by cases h; decide)

/-- C3: a service mapping in which exactly one of `hostname` and `address` is present is
rejected by `add_service` and no libmdns call is made, whatever the other pairs are. -/
theorem C3_host_without_address_rejected (env : Env) (lib : Lib) (group : String) (index : Int)
    (document : yaml_document_t) (mark : yaml_mark_t) (pairs : List yaml_node_pair_t)
    (tr : List Event)
    (hwf : node_wf document ⟨.mapping pairs, mark⟩ = true)
    (hone : has_key document "hostname" pairs ≠ has_key document "address" pairs) :
    rejected (add_service env lib group index document (some ⟨.mapping pairs, mark⟩) tr) ∧
      calls_of (add_service env lib group index document (some ⟨.mapping pairs, mark⟩) tr).2
        = [] := by
  apply add_service_rejected env lib group index document _ tr hwf
  intro ms hc
  obtain ⟨hg, s, p, _, _, _, hh, _⟩ :=
    (add_service_check_next_iff env group index document mark pairs ms).1 hc
  rw [node_value_isSome env document "hostname" pairs hg,
    node_value_isSome env document "address" pairs hg] at hh
  exact hone hh

/-- C3, witness: `{service: http, protocol: tcp, port: "80", hostname: box}` is rejected. -/
theorem C3_host_without_address_rejected_witness :
    has_key box_document "hostname" [⟨5, 6⟩, ⟨7, 8⟩, ⟨9, 10⟩, ⟨11, 12⟩] = true ∧
    has_key box_document "address" [⟨5, 6⟩, ⟨7, 8⟩, ⟨9, 10⟩, ⟨11, 12⟩] = false ∧
    rejected (add_service sample_env sample_lib "web" 1 box_document
      (some ⟨.mapping [⟨5, 6⟩, ⟨7, 8⟩, ⟨9, 10⟩, ⟨11, 12⟩], ⟨0, 8⟩⟩) []) ∧
    calls_of (add_service sample_env sample_lib "web" 1 box_document
      (some ⟨.mapping [⟨5, 6⟩, ⟨7, 8⟩, ⟨9, 10⟩, ⟨11, 12⟩], ⟨0, 8⟩⟩) []).2 = [] :=
  ⟨by decide, by decide,
    C3_host_without_address_rejected sample_env sample_lib "web" 1 box_document ⟨0, 8⟩
      [⟨5, 6⟩, ⟨7, 8⟩, ⟨9, 10⟩, ⟨11, 12⟩] [] (by decide) (by decide)⟩

/-- C4: in an otherwise valid service mapping (one that passes the tests of `add_service`
without the pair) a `port` pair with value `x`, no `port` pair following it, is accepted
exactly when `strtonum` accepts `x` as a number of [0, 65535]: the descriptor then has that
port and is registered when `mdns_service_init` accepts it; for any other value the node
is rejected without a libmdns call. "0" and "65535" are accepted, "65536" and "abc" are
not, and a string of decimal digits is accepted, with the number it denotes, exactly when
that number is at most 65535. -/
theorem C4_port_range (env : Env) (lib : Lib) (group : String) (index : Int)
    (document : yaml_document_t) (mark : yaml_mark_t) (front back : List yaml_node_pair_t)
    (pp : yaml_node_pair_t) (x : String) (ms0 : mdns_service) (tr : List Event)
    (hkey : pair_key document pp = some "port") (hval : pair_value document pp = some x)
    (hback : has_key document "port" back = false)
    (hother : add_service_check env group index document
      (some ⟨.mapping (front ++ back), mark⟩) = .next ms0) :
    (∀ n, strtonum x 0 UINT16_MAX = .ok n →
      (0 ≤ n ∧ n ≤ 65535) ∧
      add_service_check env group index document
        (some ⟨.mapping (front ++ pp :: back), mark⟩) = .next { ms0 with port := n } ∧
      (lib.mdns_service_init { ms0 with port := n } ≠ -1 →
        calls_of (add_service env lib group index document
          (some ⟨.mapping (front ++ pp :: back), mark⟩) tr).2 =
          [.mdns_group_add_service group { ms0 with port := n }])) ∧
    (∀ err, strtonum x 0 UINT16_MAX = .error err →
      rejected (add_service env lib group index document
        (some ⟨.mapping (front ++ pp :: back), mark⟩) tr) ∧
      calls_of (add_service env lib group index document
        (some ⟨.mapping (front ++ pp :: back), mark⟩) tr).2 = []) ∧
    strtonum "0" 0 UINT16_MAX = .ok 0 ∧ strtonum "65535" 0 UINT16_MAX = .ok 65535 ∧
    strtonum "65536" 0 UINT16_MAX = .error "too large" ∧
    strtonum "abc" 0 UINT16_MAX = .error "invalid" ∧
    (∀ ds : List Char, ds ≠ [] → (∀ c ∈ ds, c.isDigit = true) →
      strtonum (String.mk ds) 0 UINT16_MAX =
        if decimal_value ds ≤ 65535 then .ok (decimal_value ds) else .error "too large") := by
  obtain ⟨hg, s, p, hs, hp, htu, hh, hms⟩ :=
    (add_service_check_next_iff env group index document mark (front ++ back) ms0).1 hother
  have hgf : front.all (pair_good env document) = true := by
    rw [List.all_append, Bool.and_eq_true] at hg; exact hg.1
  have hgb : back.all (pair_good env document) = true := by
    rw [List.all_append, Bool.and_eq_true] at hg; exact hg.2
  have hnv : ∀ k, k ≠ "port" → node_value document k (front ++ pp :: back) =
      node_value document k (front ++ back) := by
    intro k hk
    rw [node_value_insert document k "port" x front back pp hkey hval, if_neg (Ne.symm hk)]
  have hnp : node_value document "port" (front ++ pp :: back) = some x := by
    rw [node_value_insert document "port" "port" x front back pp hkey hval, if_pos rfl,
      node_value_of_no_key document "port" back hback]
    rfl
  refine ⟨?_, ?_, rfl, rfl, rfl, rfl, strtonum_decimal⟩
  · intro n hn
    have hgood : (front ++ pp :: back).all (pair_good env document) = true := by
      rw [List.all_append, List.all_cons, hgf, hgb]
      simp [pair_good, hkey, hval, parse_port_of_ok x n hn]
    have hd : node_descriptor env group document (front ++ pp :: back) s p =
        { ms0 with port := n } := by
      rw [hms]
      unfold node_descriptor node_port
      rw [hnp, hnv "text" (by decide), hnv "hostname" (by decide), hnv "address" (by decide)]
      simp only [parse_port_of_ok x n hn, Option.getD_some]
    have hc : add_service_check env group index document
        (some ⟨.mapping (front ++ pp :: back), mark⟩) = .next { ms0 with port := n } := by
      rw [← hd]
      refine (add_service_check_next_iff env group index document mark _ _).2
        ⟨hgood, s, p, ?_, ?_, htu, ?_, rfl⟩
      · rw [hnv "service" (by decide)]; exact hs
      · rw [hnv "protocol" (by decide)]; exact hp
      · rw [hnv "hostname" (by decide), hnv "address" (by decide)]; exact hh
    refine ⟨strtonum_ok_range x 0 UINT16_MAX n hn, hc, ?_⟩
    intro hinit
    exact (add_service_of_next env lib group index document _ tr _ hc hinit).2
  · intro err herr
    apply add_service_rejected env lib group index document _ tr
    · unfold node_wf
      simp only [List.all_append, List.all_cons, Bool.and_eq_true]
      refine ⟨?_, ?_, ?_⟩
      · rw [List.all_eq_true] at hgf ⊢
        exact fun q hq => pair_good_resolves env document q (hgf q hq)
      · unfold pair_resolves
        unfold pair_key at hkey
        unfold pair_value at hval
        cases h1 : yaml_document_get_node document pp.key with
        | none => simp [h1] at hkey
        | some a =>
          cases h2 : yaml_document_get_node document pp.value with
          | none => simp [h2] at hval
          | some b => rfl
      · rw [List.all_eq_true] at hgb ⊢
        exact fun q hq => pair_good_resolves env document q (hgb q hq)
    · intro ms hc
      obtain ⟨hg2, _⟩ :=
        (add_service_check_next_iff env group index document mark _ ms).1 hc
      rw [List.all_append, List.all_cons] at hg2
      simp [pair_good, hkey, hval, parse_port_of_error x err herr] at hg2

/-- C4, witness: `{service: ipp, protocol: tcp, port: "65535"}`. -/
theorem C4_port_range_witness :
    add_service_check sample_env "printer" 1 (service_document (scalar_node "tcp") (scalar_node "65535"))
      (some ⟨.mapping ([⟨2, 3⟩, ⟨4, 5⟩] ++ ⟨6, 7⟩ :: []), ⟨0, 0⟩⟩) =
      .next ⟨"printer", "ipp", "tcp", 65535, "", none, none⟩ :=
  ((C4_port_range sample_env sample_lib "printer" 1
    (service_document (scalar_node "tcp") (scalar_node "65535")) ⟨0, 0⟩ [⟨2, 3⟩, ⟨4, 5⟩] []
    ⟨6, 7⟩ "65535" ⟨"printer", "ipp", "tcp", 0, "", none, none⟩ [] (by decide) (by decide)
    (by decide) (by decide)).1 65535 rfl).2.1

/-- C5: a service node whose `protocol` is absent or is any string other than exactly
"tcp" or "udp" is rejected by `add_service` and no libmdns call is made. -/
theorem C5_protocol_rejected (env : Env) (lib : Lib) (group : String) (index : Int)
    (document : yaml_document_t) (item : yaml_node_t) (tr : List Event)
    (hwf : node_wf document item = true)
    (hproto : ∀ pairs p, item.data = .mapping pairs →
      node_value document "protocol" pairs = some p → p ≠ "tcp" ∧ p ≠ "udp") :
    rejected (add_service env lib group index document (some item) tr) ∧
      calls_of (add_service env lib group index document (some item) tr).2 = [] := by
  apply add_service_rejected env lib group index document item tr hwf
  intro ms hc
  obtain ⟨data, mark⟩ := item
  cases data with
  | mapping pairs =>
    obtain ⟨_, s, p, _, hp, htu, _⟩ :=
      (add_service_check_next_iff env group index document mark pairs ms).1 hc
    obtain ⟨h1, h2⟩ := hproto pairs p rfl hp
    rcases htu with h | h
    · exact h1 h
    · exact h2 h
  | no_node => simp [add_service_check] at hc
  | scalar v l => simp [add_service_check] at hc
  | sequence items => simp [add_service_check] at hc

/-- C5, witness: the protocols "TCP" and "sctp" and an empty scalar are refused. -/
theorem C5_protocol_rejected_witness :
    rejected (add_service sample_env sample_lib "printer" 1
      (service_document (scalar_node "TCP") (scalar_node "631"))
      (some ⟨.mapping [⟨2, 3⟩, ⟨4, 5⟩, ⟨6, 7⟩], ⟨0, 0⟩⟩) []) ∧
    rejected (add_service sample_env sample_lib "printer" 1
      (service_document (scalar_node "sctp") (scalar_node "631"))
      (some ⟨.mapping [⟨2, 3⟩, ⟨4, 5⟩, ⟨6, 7⟩], ⟨0, 0⟩⟩) []) ∧
    rejected (add_service sample_env sample_lib "printer" 1
      (service_document (scalar_node "") (scalar_node "631"))
      (some ⟨.mapping [⟨2, 3⟩, ⟨4, 5⟩, ⟨6, 7⟩], ⟨0, 0⟩⟩) []) :=
  ⟨(C5_protocol_rejected sample_env sample_lib "printer" 1
      (service_document (scalar_node "TCP") (scalar_node "631"))
      ⟨.mapping [⟨2, 3⟩, ⟨4, 5⟩, ⟨6, 7⟩], ⟨0, 0⟩⟩ [] (by decide)
      (fun pairs p h hv => by
        cases h
        cases (show some "TCP" = some p from hv)
        decide)).1,
    (C5_protocol_rejected sample_env sample_lib "printer" 1
      (service_document (scalar_node "sctp") (scalar_node "631"))
      ⟨.mapping [⟨2, 3⟩, ⟨4, 5⟩, ⟨6, 7⟩], ⟨0, 0⟩⟩ [] (by decide)
      (fun pairs p h hv => by
        cases h
        cases (show some "sctp" = some p from hv)
        decide)).1,
    (C5_protocol_rejected sample_env sample_lib "printer" 1
      (service_document (scalar_node "") (scalar_node "631"))
      ⟨.mapping [⟨2, 3⟩, ⟨4, 5⟩, ⟨6, 7⟩], ⟨0, 0⟩⟩ [] (by decide)
      (fun pairs p h hv => by
        cases h
        cases (show (none : Option String) = some p from hv))).1⟩

/-! ## Claims on add_group, main and the hook -/

/-- C6 (amended): for a stream of well-formed documents whose roots are mappings, processed
with `mdns_open`, `mdns_group_add` and `mdns_group_commit` succeeding, the loop of `main`
runs to the end, and every group name that exactly one entry of the stream defines (an
entry with a valid name and a sequence value) appears in exactly one `mdns_group_commit`
call of the trace; the calls that name the group are its definition, its registrations
and last that commit, so no call naming the group follows the commit. -/
theorem C6_commit_once_and_last (env : Env) (lib : Lib) (debug : Bool) (config : String)
    (stream : List yaml_document_t) (initialised : Bool) (tr : List Event) (g : String)
    (hwf : ∀ d ∈ stream, document_wf d = true)
    (hroot : ∀ d ∈ stream, ∃ pairs mark,
      yaml_document_get_root_node d = some ⟨.mapping pairs, mark⟩)
    (hopen : ∀ t, lib.mdns_open t ≠ -1)
    (hdefine : ∀ t g, lib.mdns_group_add t g ≠ -1)
    (hcommit : ∀ t g, lib.mdns_group_commit t g ≠ -1)
    (hone : (stream_groups stream).count (some g) = 1) :
    (main_load env lib debug config (stream.map some) initialised tr).1 = .returned ∧
    (calls_of (main_load env lib debug config (stream.map some) initialised tr).2).count
      (.mdns_group_commit g) = 1 ∧
    one_group g (calls_of (main_load env lib debug config (stream.map some) initialised tr).2) ∧
    (∀ front back,
      calls_of (main_load env lib debug config (stream.map some) initialised tr).2 =
        front ++ .mdns_group_commit g :: back →
      ∀ c ∈ back, call_names g c = false) := by
  obtain ⟨h1, _, h3⟩ := main_load_calls env lib debug config g hopen hdefine hcommit stream
    initialised tr hwf hroot
  have hg := h3 hone
  exact ⟨h1, one_group_count g _ hg, hg, fun front back hs => one_group_last g _ hg front back hs⟩

/-- C6, witness: the printer document alone; "printer" is committed once, last. -/
theorem C6_commit_once_and_last_witness :
    (stream_groups [printer_document]).count (some "printer") = 1 ∧
    (calls_of (main_load sample_env sample_lib true "mdnsserve.yaml"
      ([printer_document].map some) false []).2).count (.mdns_group_commit "printer") = 1 :=
  ⟨by decide,
    (C6_commit_once_and_last sample_env sample_lib true "mdnsserve.yaml" [printer_document]
      false [] "printer" (by decide)
      (fun d hd => by
        rw [List.mem_singleton.1 hd]
        exact ⟨_, _, rfl⟩)
      (fun _ => (show (0 : Int) ≠ -1 by decide))
      (fun _ _ => (show (0 : Int) ≠ -1 by decide))
      (fun _ _ => (show (0 : Int) ≠ -1 by decide)) (by decide)).2.1⟩

/-- C6, counterexample: a stream of two valid documents that both hold the entry
`"printer": [{service: ipp, protocol: tcp, port: "631"}]`, every call succeeding. The
name "printer" appears in two `mdns_group_commit` calls, and the first of them is followed
by `mdns_group_add("printer")`. -/
theorem C6_counterexample :
    document_wf printer_document = true ∧
    document_groups printer_document = [some "printer"] ∧
    calls_of (main_load sample_env sample_lib true "mdnsserve.yaml"
      [some printer_document, some printer_document] false []).2 =
      [.mdns_open, .mdns_set_group_hook,
        .mdns_group_add "printer",
        .mdns_group_add_service "printer" ⟨"printer", "ipp", "tcp", 631, "", none, none⟩,
        .mdns_group_commit "printer",
        .mdns_group_add "printer",
        .mdns_group_add_service "printer" ⟨"printer", "ipp", "tcp", 631, "", none, none⟩,
        .mdns_group_commit "printer"] ∧
    (calls_of (main_load sample_env sample_lib true "mdnsserve.yaml"
      [some printer_document, some printer_document] false []).2).count
        (.mdns_group_commit "printer") = 2 :=
  ⟨by decide, by decide, by decide, by decide⟩

/-- C7: for a group entry with a valid name and a sequence value, when `mdns_group_add`
and `mdns_group_commit` succeed, `add_group` returns and its libmdns calls are exactly
`mdns_group_add(name)`, then one `mdns_group_add_service` call for each item that is
accepted, in document order, then `mdns_group_commit(name)`. This holds whatever
`mdns_service_init` and `mdns_group_add_service` return, and every item gets its one
diagnostic: a rejected item or a failed registration stops neither the remaining items
nor the commit. The items are numbered from 1: item number `k` of the sequence (counted
from 0) is handed to `add_service` with the index `k + 1`, and the events of that
invocation follow the definition of the group, the registrations of the accepted items
before it and the `k` diagnostics of the items before it. -/
theorem C7_group_calls (env : Env) (lib : Lib) (index : Int) (document : yaml_document_t)
    (pair : yaml_node_pair_t) (tr : List Event) (group : String) (len : Nat)
    (kmark vmark : yaml_mark_t) (items : List Int)
    (hwf : document_wf document = true)
    (hkey : yaml_document_get_node document pair.key = some ⟨.scalar group len, kmark⟩)
    (hlen : 0 < len ∧ len < MAXHOSTNAMELEN)
    (hvalue : yaml_document_get_node document pair.value = some ⟨.sequence items, vmark⟩)
    (hdefine : lib.mdns_group_add tr group ≠ -1)
    (hcommit : ∀ t, lib.mdns_group_commit t group ≠ -1) :
    (add_group env lib index document pair tr).1 = .returned ∧
    calls_of (add_group env lib index document pair tr).2 =
      .mdns_group_add group ::
        (accepted_calls env lib group document 1 items ++ [.mdns_group_commit group]) ∧
    (logs_of (add_group env lib index document pair tr).2).length = items.length ∧
    (∀ (k : Nat) (item : Int), items.get? k = some item →
      ∃ pre post, (add_group env lib index document pair tr).2 =
        pre ++ (add_service env lib group ((k : Int) + 1) document
          (yaml_document_get_node document item) (tr ++ pre)).2 ++ post ∧
        (logs_of pre).length = k ∧
        calls_of pre = .mdns_group_add group ::
          accepted_calls env lib group document 1 (items.take k)) :=
  have h := add_group_valid_events env lib index document pair tr group len kmark vmark items
    hwf hkey hlen hvalue hdefine hcommit
  ⟨h.1, h.2.1, h.2.2,
    add_group_valid_segment env lib index document pair tr group len kmark vmark items hwf hkey
      hlen hvalue hdefine hcommit⟩

/-- C7, witness: the printer document defines "printer", adds {ipp, tcp, 631} and commits;
in the box document the only item is rejected, its diagnostic carries the item number 1,
and the group "web" is committed all the same. -/
theorem C7_group_calls_witness :
    calls_of (add_group sample_env sample_lib 1 printer_document ⟨2, 3⟩ []).2 =
      [.mdns_group_add "printer",
        .mdns_group_add_service "printer" ⟨"printer", "ipp", "tcp", 631, "", none, none⟩,
        .mdns_group_commit "printer"] ∧
    (∃ pre post, (add_group sample_env sample_lib 1 box_document ⟨2, 3⟩ []).2 =
      pre ++ (add_service sample_env sample_lib "web" (((0 : Nat) : Int) + 1) box_document
        (yaml_document_get_node box_document 4) ([] ++ pre)).2 ++ post ∧
      (logs_of pre).length = 0 ∧
      calls_of pre = .mdns_group_add "web" ::
        accepted_calls sample_env sample_lib "web" box_document 1 (([4] : List Int).take 0)) ∧
    add_group sample_env sample_lib 1 box_document ⟨2, 3⟩ [] =
      (.returned, [.call (.mdns_group_add "web") 0,
        .log .log_warnx
          "'hostname' and 'address' must be both empty or valid in item %d of group '%s', ignoring service"
          [.int 1, .str "web"],
        .call (.mdns_group_commit "web") 0]) :=
  ⟨(C7_group_calls sample_env sample_lib 1 printer_document ⟨2, 3⟩ [] "printer" 7 ⟨0, 0⟩
      ⟨0, 11⟩ [4] (by decide) (by decide) (by decide) (by decide) (by decide)
      (fun _ => (show (0 : Int) ≠ -1 by decide))).2.1,
    (C7_group_calls sample_env sample_lib 1 box_document ⟨2, 3⟩ [] "web" 3 ⟨0, 0⟩
      ⟨0, 7⟩ [4] (by decide) (by decide) (by decide) (by decide) (by decide)
      (fun _ => (show (0 : Int) ≠ -1 by decide))).2.2.2 0 4 rfl,
    by decide⟩

/-- C8 (amended): for a group entry whose key is a scalar, `add_group` accepts the name
exactly when its length is at least 1 and at most 255 (`MAXHOSTNAMELEN` being 256): an
empty name and a name of 256 bytes or more are skipped with a warning about the name,
while with a name of 1 to 255 bytes `add_group` goes on to the value node, defining the
group when the value is a sequence. -/
theorem C8_group_name_length (env : Env) (lib : Lib) (index : Int) (document : yaml_document_t)
    (pair : yaml_node_pair_t) (tr : List Event) (group : String) (len : Nat)
    (kmark : yaml_mark_t) (value : yaml_node_t)
    (hkey : yaml_document_get_node document pair.key = some ⟨.scalar group len, kmark⟩)
    (hvalue : yaml_document_get_node document pair.value = some value) :
    (len = 0 → add_group env lib index document pair tr =
      (.returned, [.log .log_warnx
        "expecting scalar at line %d column %d for group %d, got %d, ignoring group"
        [.int kmark.line, .int kmark.column, .int index, .int 1]])) ∧
    (256 ≤ len → add_group env lib index document pair tr =
      (.returned, [.log .log_warnx
        "group name '%s' too long (line %d column %d), ignoring group"
        [.str group, .int kmark.line, .int kmark.column]])) ∧
    (1 ≤ len ∧ len ≤ 255 →
      (∀ items, value.data = .sequence items →
        ∃ rest, (add_group env lib index document pair tr).2 =
          .call (.mdns_group_add group) (lib.mdns_group_add tr group) :: rest) ∧
      ((∀ items, value.data ≠ .sequence items) →
        add_group env lib index document pair tr =
          (.returned, [.log .log_warnx
            "expecting array of services for group '%s' (line %d column %d), got type %d, ignoring group"
            [.str group, .int value.start_mark.line, .int value.start_mark.column,
              .int value.type]]))) := by
  unfold add_group
  rw [hkey, hvalue]
  refine ⟨?_, ?_, ?_⟩
  · intro h0
    simp [h0, yaml_node_t.type]
  · intro h256
    have h1 : len ≠ 0 := by omega
    have h2 : MAXHOSTNAMELEN ≤ len := h256
    simp [h1, h2]
  · rintro ⟨h1, h255⟩
    have h1 : len ≠ 0 := by omega
    have h2 : ¬ MAXHOSTNAMELEN ≤ len := by unfold MAXHOSTNAMELEN; omega
    simp only [if_neg h1, if_neg h2]
    constructor
    · intro items hitems
      rw [hitems]
      simp only
      repeat' split
      all_goals exact ⟨_, rfl⟩
    · intro hns
      obtain ⟨data, vm⟩ := value
      cases data with
      | sequence items => exact absurd rfl (hns items)
      | no_node => rfl
      | scalar v l => rfl
      | mapping ps => rfl

/-- C8, witness: a name of 7 bytes with a sequence value is defined. -/
theorem C8_group_name_length_witness :
    ∃ rest, (add_group sample_env sample_lib 1 printer_document ⟨2, 3⟩ []).2 =
      .call (.mdns_group_add "printer") 0 :: rest :=
  ((C8_group_name_length sample_env sample_lib 1 printer_document ⟨2, 3⟩ [] "printer" 7 ⟨0, 0⟩
    ⟨.sequence [4], ⟨0, 11⟩⟩ (by decide) (by decide)).2.2 (by decide)).1 [4] rfl

set_option maxRecDepth 100000 in
/-- C8, counterexample: a group name of 255 bytes is not a length violation; the group
of `{<255 bytes>: []}` is defined and committed. -/
theorem C8_counterexample :
    name255.length = 255 ∧
    yaml_document_get_node long_name_document 2 = some ⟨.scalar name255 255, ⟨0, 0⟩⟩ ∧
    add_group sample_env sample_lib 1 long_name_document ⟨2, 3⟩ [] =
      (.returned, [.call (.mdns_group_add name255) 0, .call (.mdns_group_commit name255) 0]) :=
  ⟨by decide, by decide, by decide⟩

/-- C9: a group entry whose key is not a non-empty scalar, whose name is too long, or
whose value is not a sequence makes `add_group` return after one warning without any
libmdns call, and the loop of `main` goes on with the next entry. -/
theorem C9_group_skipped (env : Env) (lib : Lib) (index : Int) (document : yaml_document_t)
    (pair : yaml_node_pair_t) (rest : List yaml_node_pair_t) (tr : List Event)
    (key value : yaml_node_t)
    (hkey : yaml_document_get_node document pair.key = some key)
    (hvalue : yaml_document_get_node document pair.value = some value)
    (hbad : nonempty_scalar key = none ∨
      (∃ group len, key.data = .scalar group len ∧ MAXHOSTNAMELEN ≤ len) ∨
      (∀ items, value.data ≠ .sequence items)) :
    rejected (add_group env lib index document pair tr) ∧
    calls_of (add_group env lib index document pair tr).2 = [] ∧
    main_groups env lib document index (pair :: rest) tr =
      ((main_groups env lib document (index + 1) rest
          (tr ++ (add_group env lib index document pair tr).2)).1,
        (add_group env lib index document pair tr).2 ++
          (main_groups env lib document (index + 1) rest
            (tr ++ (add_group env lib index document pair tr).2)).2) :=
  add_group_skipped_events env lib index document pair rest tr key value hkey hvalue hbad

/-- C9, witness: the entry `box: http`, whose value is a scalar, is skipped. -/
theorem C9_group_skipped_witness :
    rejected (add_group sample_env sample_lib 1 scalar_entry_document ⟨2, 3⟩ []) ∧
    calls_of (add_group sample_env sample_lib 1 scalar_entry_document ⟨2, 3⟩ []).2 = [] :=
  have h := C9_group_skipped sample_env sample_lib 1 scalar_entry_document ⟨2, 3⟩ [] []
    (scalar_node "box") (scalar_node "http") (by decide) (by decide)
    (Or.inr (Or.inr (fun items h => nomatch h)))
  ⟨h.1, h.2.1⟩

/-- C10: `mdnsserve_group_hook` acts as the transition table says. Collision and DoubleAdd
log a warning, Probing and Announcing a debug trace, Published a notice, any other code an
"unhandled group event" warning, all of these returning; NotFound, and only NotFound,
ends the process, with a fatal diagnostic that names the group. -/
theorem C10_group_hook (env : Env) (event : Int) (group : String)
    (hcodes : event_codes_distinct env) :
    (event = env.MDNS_GROUP_ERR_COLLISION → mdnsserve_group_hook env event group =
      (.returned, [.log .log_warnx "collision on group '%s', not published" [.str group]])) ∧
    (event = env.MDNS_GROUP_ERR_NOT_FOUND → mdnsserve_group_hook env event group =
      (.exited, [.log .log_fatalx "group '%s' not found, shutting down" [.str group]])) ∧
    (event = env.MDNS_GROUP_ERR_DOUBLE_ADD → mdnsserve_group_hook env event group =
      (.returned, [.log .log_warnx "group '%s' already added, not published" [.str group]])) ∧
    (event = env.MDNS_GROUP_PROBING → mdnsserve_group_hook env event group =
      (.returned, [.log .log_debug "probing group '%s'..." [.str group]])) ∧
    (event = env.MDNS_GROUP_ANNOUNCING → mdnsserve_group_hook env event group =
      (.returned, [.log .log_debug "announcing group '%s'..." [.str group]])) ∧
    (event = env.MDNS_GROUP_PUBLISHED → mdnsserve_group_hook env event group =
      (.returned, [.log .log_notice "group '%s' published" [.str group]])) ∧
    (event ∉ [env.MDNS_GROUP_ERR_COLLISION, env.MDNS_GROUP_ERR_NOT_FOUND,
        env.MDNS_GROUP_ERR_DOUBLE_ADD, env.MDNS_GROUP_PROBING, env.MDNS_GROUP_ANNOUNCING,
        env.MDNS_GROUP_PUBLISHED] → mdnsserve_group_hook env event group =
      (.returned, [.log .log_warnx "unhandled group event %d" [.int event]])) ∧
    ((mdnsserve_group_hook env event group).1 = .exited ↔
      event = env.MDNS_GROUP_ERR_NOT_FOUND) := by
  unfold event_codes_distinct at hcodes
  simp only [List.nodup_cons, List.mem_cons, List.mem_singleton, not_or, List.not_mem_nil,
    not_false_eq_true, List.nodup_nil, and_true] at hcodes
  obtain ⟨⟨h12, h13, h14, h15, h16⟩, ⟨h23, h24, h25, h26⟩, ⟨h34, h35, h36⟩, ⟨h45, h46⟩, h56⟩ :=
    hcodes
  unfold mdnsserve_group_hook
  refine ⟨?_, ?_, ?_, ?_, ?_, ?_, ?_, ?_⟩
  · intro h; subst h; simp
  · intro h; subst h; simp [Ne.symm h12]
  · intro h; subst h; simp [Ne.symm h13, Ne.symm h23]
  · intro h; subst h; simp [Ne.symm h14, Ne.symm h24, Ne.symm h34]
  · intro h; subst h; simp [Ne.symm h15, Ne.symm h25, Ne.symm h35, Ne.symm h45]
  · intro h; subst h; simp [Ne.symm h16, Ne.symm h26, Ne.symm h36, Ne.symm h46, Ne.symm h56]
  · intro h
    simp only [List.mem_cons, List.mem_singleton, not_or, List.not_mem_nil, or_false] at h
    obtain ⟨n1, n2, n3, n4, n5, n6⟩ := h
    simp [n1, n2, n3, n4, n5, n6]
  · split_ifs with c1 c2 c3 c4 c5 c6 <;> simp_all

/-- C10, witness: with the codes numbered from 0, NotFound for group "printer" ends the
process with a diagnostic naming "printer", and Published logs a notice and returns. -/
theorem C10_group_hook_witness :
    mdnsserve_group_hook sample_env 1 "printer" =
      (.exited, [.log .log_fatalx "group '%s' not found, shutting down" [.str "printer"]]) ∧
    mdnsserve_group_hook sample_env 5 "printer" =
      (.returned, [.log .log_notice "group '%s' published" [.str "printer"]]) :=
  have h := C10_group_hook sample_env
  ⟨(h 1 "printer" (show [(0 : Int), 1, 2, 3, 4, 5].Nodup by decide)).2.1 rfl,
    (h 5 "printer" (show [(0 : Int), 1, 2, 3, 4, 5].Nodup by decide)).2.2.2.2.2.1 rfl⟩

/-! ## Further claims on add_service -/

/-- C15: inserting, at any position of a service mapping, a pair whose key is a non-empty
scalar other than `service`, `protocol`, `hostname`, `address`, `port`, `text` and whose
value is a non-empty scalar changes neither whether the node passes the tests of
`add_service`, nor the descriptor, nor the libmdns calls that `add_service` makes. -/
theorem C15_unknown_key_ignored (env : Env) (lib : Lib) (group : String) (index : Int)
    (document : yaml_document_t) (mark : yaml_mark_t) (front back : List yaml_node_pair_t)
    (pp : yaml_node_pair_t) (k x : String) (tr : List Event)
    (hkey : pair_key document pp = some k) (hval : pair_value document pp = some x)
    (hk : k ∉ ["service", "protocol", "hostname", "address", "port", "text"]) :
    (∀ ms, add_service_check env group index document
        (some ⟨.mapping (front ++ pp :: back), mark⟩) = .next ms ↔
      add_service_check env group index document
        (some ⟨.mapping (front ++ back), mark⟩) = .next ms) ∧
    calls_of (add_service env lib group index document
        (some ⟨.mapping (front ++ pp :: back), mark⟩) tr).2 =
      calls_of (add_service env lib group index document
        (some ⟨.mapping (front ++ back), mark⟩) tr).2 := by
  simp only [List.mem_cons, List.mem_singleton, not_or, List.not_mem_nil, or_false] at hk
  obtain ⟨k1, k2, k3, k4, k5, k6⟩ := hk
  have hiff : ∀ ms, add_service_check env group index document
        (some ⟨.mapping (front ++ pp :: back), mark⟩) = .next ms ↔
      add_service_check env group index document
        (some ⟨.mapping (front ++ back), mark⟩) = .next ms := by
    intro ms
    apply add_service_check_congr
    · simp only [List.all_append, List.all_cons,
        pair_good_of_unknown env document pp k x hkey hval k4 k5, Bool.true_and]
    · intro k' hk'
      rw [node_value_insert document k' k x front back pp hkey hval]
      have : k ≠ k' := by
        simp only [List.mem_cons, List.mem_singleton, List.not_mem_nil, or_false] at hk'
        rcases hk' with rfl | rfl | rfl | rfl | rfl | rfl <;> assumption
      rw [if_neg this]
  exact ⟨hiff, add_service_calls_congr env lib group index document _ _ tr hiff⟩

/-- C15, witness: the pair `note: x` put after the first pair of the printer node. -/
theorem C15_unknown_key_ignored_witness :
    calls_of (add_service sample_env sample_lib "printer" 1 noted_document
        (some ⟨.mapping ([⟨5, 6⟩] ++ ⟨11, 12⟩ :: [⟨7, 8⟩, ⟨9, 10⟩]), ⟨0, 12⟩⟩) []).2 =
      calls_of (add_service sample_env sample_lib "printer" 1 noted_document
        (some ⟨.mapping ([⟨5, 6⟩] ++ [⟨7, 8⟩, ⟨9, 10⟩]), ⟨0, 12⟩⟩) []).2 :=
  (C15_unknown_key_ignored sample_env sample_lib "printer" 1 noted_document ⟨0, 12⟩ [⟨5, 6⟩]
    [⟨7, 8⟩, ⟨9, 10⟩] ⟨11, 12⟩ "note" "x" [] (by decide) (by decide) (by decide)).2

/-- C16: a service node that is not a mapping, or that has a pair whose key or value is
not a non-empty scalar, is rejected by `add_service` with one warning: the function
returns and makes no libmdns call. -/
theorem C16_malformed_node_rejected (env : Env) (lib : Lib) (group : String) (index : Int)
    (document : yaml_document_t) (item : yaml_node_t) (tr : List Event)
    (hwf : node_wf document item = true)
    (hbad : (∀ pairs, item.data ≠ .mapping pairs) ∨
      (∃ pairs, item.data = .mapping pairs ∧
        ∃ q ∈ pairs, pair_key document q = none ∨ pair_value document q = none)) :
    rejected (add_service env lib group index document (some item) tr) ∧
      calls_of (add_service env lib group index document (some item) tr).2 = [] := by
  apply add_service_rejected env lib group index document item tr hwf
  intro ms hc
  obtain ⟨data, mark⟩ := item
  cases data with
  | mapping pairs =>
    rcases hbad with hb | ⟨ps, hps, q, hq, hnone⟩
    · exact hb pairs rfl
    · cases hps
      obtain ⟨hg, _⟩ := (add_service_check_next_iff env group index document mark pairs ms).1 hc
      have hqg := List.all_eq_true.1 hg q hq
      unfold pair_good at hqg
      rcases hnone with h | h
      · simp [h] at hqg
      · cases hk : pair_key document q <;> simp [hk, h] at hqg
  | no_node => simp [add_service_check] at hc
  | scalar v l => simp [add_service_check] at hc
  | sequence items => simp [add_service_check] at hc

/-- C16, witness: an empty `text` value, an unrecognized key with a sequence as value, and
a node that is a scalar. -/
theorem C16_malformed_node_rejected_witness :
    rejected (add_service sample_env sample_lib "printer" 1
      (extra_document (scalar_node "text") (scalar_node ""))
      (some ⟨.mapping [⟨2, 3⟩, ⟨4, 5⟩, ⟨6, 7⟩], ⟨0, 0⟩⟩) []) ∧
    rejected (add_service sample_env sample_lib "printer" 1
      (extra_document (scalar_node "note") ⟨.sequence [], ⟨0, 0⟩⟩)
      (some ⟨.mapping [⟨2, 3⟩, ⟨4, 5⟩, ⟨6, 7⟩], ⟨0, 0⟩⟩) []) ∧
    rejected (add_service sample_env sample_lib "printer" 1 printer_document
      (some (scalar_node "ipp")) []) :=
  ⟨(C16_malformed_node_rejected sample_env sample_lib "printer" 1
      (extra_document (scalar_node "text") (scalar_node ""))
      ⟨.mapping [⟨2, 3⟩, ⟨4, 5⟩, ⟨6, 7⟩], ⟨0, 0⟩⟩ [] (by decide)
      (Or.inr ⟨_, rfl, ⟨6, 7⟩, by decide, Or.inr (by decide)⟩)).1,
    (C16_malformed_node_rejected sample_env sample_lib "printer" 1
      (extra_document (scalar_node "note") ⟨.sequence [], ⟨0, 0⟩⟩)
      ⟨.mapping [⟨2, 3⟩, ⟨4, 5⟩, ⟨6, 7⟩], ⟨0, 0⟩⟩ [] (by decide)
      (Or.inr ⟨_, rfl, ⟨6, 7⟩, by decide, Or.inr (by decide)⟩)).1,
    (C16_malformed_node_rejected sample_env sample_lib "printer" 1 printer_document
      (scalar_node "ipp") [] (by decide) (Or.inl (fun _ h => nomatch h))).1⟩

/-- C17: a service mapping with an `address` pair whose value `inet_pton` does not accept
as an IPv4 literal is rejected by `add_service` without a libmdns call, whether or not
`hostname` is present and whatever the other pairs are. -/
theorem C17_bad_address_rejected (env : Env) (lib : Lib) (group : String) (index : Int)
    (document : yaml_document_t) (mark : yaml_mark_t) (pairs : List yaml_node_pair_t)
    (tr : List Event) (q : yaml_node_pair_t)
    (hwf : node_wf document ⟨.mapping pairs, mark⟩ = true)
    (hq : q ∈ pairs) (hkey : pair_key document q = some "address")
    (hbad : ∀ x, pair_value document q = some x → env.inet_pton x = none) :
    rejected (add_service env lib group index document (some ⟨.mapping pairs, mark⟩) tr) ∧
      calls_of (add_service env lib group index document (some ⟨.mapping pairs, mark⟩) tr).2
        = [] := by
  apply add_service_rejected env lib group index document _ tr hwf
  intro ms hc
  obtain ⟨hg, _⟩ := (add_service_check_next_iff env group index document mark pairs ms).1 hc
  have hqg := List.all_eq_true.1 hg q hq
  unfold pair_good at hqg
  cases hv : pair_value document q with
  | none => simp [hkey, hv] at hqg
  | some x => simp [hkey, hv, hbad x hv] at hqg

/-- C17, witness: `{service: ipp, protocol: tcp, address: "not-an-address"}`. -/
theorem C17_bad_address_rejected_witness :
    rejected (add_service sample_env sample_lib "printer" 1
      (extra_document (scalar_node "address") (scalar_node "not-an-address"))
      (some ⟨.mapping [⟨2, 3⟩, ⟨4, 5⟩, ⟨6, 7⟩], ⟨0, 0⟩⟩) []) :=
  (C17_bad_address_rejected sample_env sample_lib "printer" 1
    (extra_document (scalar_node "address") (scalar_node "not-an-address")) ⟨0, 0⟩
    [⟨2, 3⟩, ⟨4, 5⟩, ⟨6, 7⟩] [] ⟨6, 7⟩ (by decide) (by decide) (by decide)
    (fun x hx => by
      cases (show some "not-an-address" = some x from hx)
      decide)).1
/-- C19: reordering the pairs of a service mapping whose scalar keys are pairwise distinct
changes neither whether the node passes the tests of `add_service`, nor the descriptor,
nor the libmdns calls that `add_service` makes. -/
theorem C19_pair_order_irrelevant (env : Env) (lib : Lib) (group : String) (index : Int)
    (document : yaml_document_t) (mark : yaml_mark_t) (pairs1 pairs2 : List yaml_node_pair_t)
    (tr : List Event)
    (hperm : pairs1.Perm pairs2)
    (hdistinct : (pairs1.filterMap (pair_key document)).Nodup) :
    (∀ ms, add_service_check env group index document (some ⟨.mapping pairs1, mark⟩) = .next ms ↔
      add_service_check env group index document (some ⟨.mapping pairs2, mark⟩) = .next ms) ∧
    calls_of (add_service env lib group index document (some ⟨.mapping pairs1, mark⟩) tr).2 =
      calls_of (add_service env lib group index document (some ⟨.mapping pairs2, mark⟩) tr).2 := by
  have hiff : ∀ ms,
      add_service_check env group index document (some ⟨.mapping pairs1, mark⟩) = .next ms ↔
      add_service_check env group index document (some ⟨.mapping pairs2, mark⟩) = .next ms :=
    fun ms => add_service_check_congr env group index document mark pairs1 pairs2
      (all_pair_good_perm env document pairs1 pairs2 hperm)
      (fun k _ => node_value_perm document k pairs1 pairs2 hperm hdistinct) ms
  exact ⟨hiff, add_service_calls_congr env lib group index document _ _ tr hiff⟩

/-- C19, witness: the printer node with its pairs in the order port, service, protocol. -/
theorem C19_pair_order_irrelevant_witness :
    add_service_check sample_env "printer" 1 printer_document
      (some ⟨.mapping [⟨9, 10⟩, ⟨5, 6⟩, ⟨7, 8⟩], ⟨0, 12⟩⟩) =
      .next ⟨"printer", "ipp", "tcp", 631, "", none, none⟩ :=
  ((C19_pair_order_irrelevant sample_env sample_lib "printer" 1 printer_document ⟨0, 12⟩
    [⟨5, 6⟩, ⟨7, 8⟩, ⟨9, 10⟩] [⟨9, 10⟩, ⟨5, 6⟩, ⟨7, 8⟩] [] (by decide) (by decide)).1
    ⟨"printer", "ipp", "tcp", 631, "", none, none⟩).1 (by decide)

/-- C20: a service mapping without a `port` key that is otherwise valid (every pair is
acceptable, `service` is present, `protocol` is "tcp" or "udp", `hostname` and `address`
are both present or both absent, and `mdns_service_init` accepts the descriptor) passes
the tests of `add_service` and is registered with port 0. -/
theorem C20_port_optional (env : Env) (lib : Lib) (group : String) (index : Int)
    (document : yaml_document_t) (mark : yaml_mark_t) (pairs : List yaml_node_pair_t)
    (tr : List Event) (s p : String)
    (hgood : pairs.all (pair_good env document) = true)
    (hservice : node_value document "service" pairs = some s)
    (hprotocol : node_value document "protocol" pairs = some p)
    (htcpudp : p = "tcp" ∨ p = "udp")
    (hhost : (node_value document "hostname" pairs).isSome =
      (node_value document "address" pairs).isSome)
    (hnoport : has_key document "port" pairs = false)
    (hinit : lib.mdns_service_init ⟨group, s, p, 0, (node_value document "text" pairs).getD "",
      node_value document "hostname" pairs,
      (node_value document "address" pairs).bind env.inet_pton⟩ ≠ -1) :
    add_service_check env group index document (some ⟨.mapping pairs, mark⟩) =
      .next ⟨group, s, p, 0, (node_value document "text" pairs).getD "",
        node_value document "hostname" pairs,
        (node_value document "address" pairs).bind env.inet_pton⟩ ∧
    (add_service env lib group index document (some ⟨.mapping pairs, mark⟩) tr).1 = .returned ∧
    calls_of (add_service env lib group index document (some ⟨.mapping pairs, mark⟩) tr).2 =
      [.mdns_group_add_service group ⟨group, s, p, 0, (node_value document "text" pairs).getD "",
        node_value document "hostname" pairs,
        (node_value document "address" pairs).bind env.inet_pton⟩] := by
  have hms : node_descriptor env group document pairs s p =
      ⟨group, s, p, 0, (node_value document "text" pairs).getD "",
        node_value document "hostname" pairs,
        (node_value document "address" pairs).bind env.inet_pton⟩ := by
    unfold node_descriptor node_port
    rw [node_value_of_no_key document "port" pairs hnoport]
  have hcheck := (add_service_check_next_iff env group index document mark pairs
    (node_descriptor env group document pairs s p)).2
    ⟨hgood, s, p, hservice, hprotocol, htcpudp, hhost, rfl⟩
  rw [hms] at hcheck
  obtain ⟨h1, h2⟩ := add_service_of_next env lib group index document _ tr _ hcheck hinit
  exact ⟨hcheck, h1, h2⟩

/-- C20, witness: `{service: ipp, protocol: tcp, text: hello}` is registered with port 0. -/
theorem C20_port_optional_witness :
    calls_of (add_service sample_env sample_lib "printer" 1
      (extra_document (scalar_node "text") (scalar_node "hello"))
      (some ⟨.mapping [⟨2, 3⟩, ⟨4, 5⟩, ⟨6, 7⟩], ⟨0, 0⟩⟩) []).2 =
      [.mdns_group_add_service "printer" ⟨"printer", "ipp", "tcp", 0, "hello", none, none⟩] :=
  (C20_port_optional sample_env sample_lib "printer" 1
    (extra_document (scalar_node "text") (scalar_node "hello")) ⟨0, 0⟩
    [⟨2, 3⟩, ⟨4, 5⟩, ⟨6, 7⟩] [] "ipp" "tcp" (by decide) (by decide) (by decide) (by decide)
    (by decide) (by decide) (by decide)).2.2
/-- C11: for a stream of two well-formed documents whose roots are mappings, with
`mdns_open`, `mdns_group_add` and `mdns_group_commit` succeeding, the first loop of `main`
runs to the end and its libmdns calls are `mdns_open`, `mdns_set_group_hook`, then the
calls for the entries of the first document in document order, then those for the entries
of the second: the groups are defined, and committed, in the order of the first document
followed by the order of the second. Entry number `k` (from 0) of either document is
handed to `add_group` with the index `k + 1`, so the numbering restarts at 1. -/
theorem C11_two_documents (env : Env) (lib : Lib) (debug : Bool) (config : String)
    (d1 d2 : yaml_document_t) (pairs1 pairs2 : List yaml_node_pair_t) (mark1 mark2 : yaml_mark_t)
    (tr : List Event)
    (hwf1 : document_wf d1 = true) (hwf2 : document_wf d2 = true)
    (hroot1 : yaml_document_get_root_node d1 = some ⟨.mapping pairs1, mark1⟩)
    (hroot2 : yaml_document_get_root_node d2 = some ⟨.mapping pairs2, mark2⟩)
    (hopen : ∀ t, lib.mdns_open t ≠ -1)
    (hdefine : ∀ t g, lib.mdns_group_add t g ≠ -1)
    (hcommit : ∀ t g, lib.mdns_group_commit t g ≠ -1) :
    (main_load env lib debug config [some d1, some d2] false tr).1 = .returned ∧
    calls_of (main_load env lib debug config [some d1, some d2] false tr).2 =
      .mdns_open :: .mdns_set_group_hook ::
        (entries_calls env lib d1 pairs1 ++ entries_calls env lib d2 pairs2) ∧
    (calls_of (main_load env lib debug config [some d1, some d2] false tr).2).filterMap
        defined_group = (document_groups d1 ++ document_groups d2).filterMap id ∧
    (calls_of (main_load env lib debug config [some d1, some d2] false tr).2).filterMap
        committed_group = (document_groups d1 ++ document_groups d2).filterMap id ∧
    (∀ (k : Nat) (pair : yaml_node_pair_t), pairs1.get? k = some pair →
      ∃ pre post, (main_load env lib debug config [some d1, some d2] false tr).2 =
        pre ++ (add_group env lib ((k : Int) + 1) d1 pair (tr ++ pre)).2 ++ post) ∧
    (∀ (k : Nat) (pair : yaml_node_pair_t), pairs2.get? k = some pair →
      ∃ pre post, (main_load env lib debug config [some d1, some d2] false tr).2 =
        pre ++ (add_group env lib ((k : Int) + 1) d2 pair (tr ++ pre)).2 ++ post) := by
  obtain ⟨o1, o2⟩ := main_initialise_open lib debug tr hopen
  have hres1 := document_wf_root d1 hwf1 pairs1 mark1 hroot1
  have hres2 := document_wf_root d2 hwf2 pairs2 mark2 hroot2
  obtain ⟨g1, c1⟩ := main_groups_calls_exact env lib d1 hwf1 hdefine hcommit pairs1 1
    (tr ++ (main_initialise lib debug false tr).2) hres1
  obtain ⟨g2, c2⟩ := main_groups_calls_exact env lib d2 hwf2 hdefine hcommit pairs2 1
    (tr ++ ((main_initialise lib debug false tr).2 ++
      (main_groups env lib d1 1 pairs1 (tr ++ (main_initialise lib debug false tr).2)).2)) hres2
  have hload := main_load_two env lib debug config d1 d2 pairs1 pairs2 mark1 mark2 tr
    hroot1 hroot2 o1 g1 g2
  have hcalls : calls_of (main_load env lib debug config [some d1, some d2] false tr).2 =
      .mdns_open :: .mdns_set_group_hook ::
        (entries_calls env lib d1 pairs1 ++ entries_calls env lib d2 pairs2) := by
    rw [hload]
    simp only [calls_of_append, o2, c1, c2]
    rfl
  have hdg1 : document_groups d1 = pairs1.map (entry_group d1) := by
    unfold document_groups; rw [hroot1]
  have hdg2 : document_groups d2 = pairs2.map (entry_group d2) := by
    unfold document_groups; rw [hroot2]
  obtain ⟨n1, m1⟩ := entries_calls_groups env lib d1 pairs1
  obtain ⟨n2, m2⟩ := entries_calls_groups env lib d2 pairs2
  refine ⟨by rw [hload], hcalls, ?_, ?_, ?_, ?_⟩
  · rw [hcalls, hdg1, hdg2]
    simp only [List.filterMap_cons, defined_group, List.filterMap_append, n1, n2]
  · rw [hcalls, hdg1, hdg2]
    simp only [List.filterMap_cons, committed_group, List.filterMap_append, m1, m2]
  · intro k pair hk
    obtain ⟨pre, post, hpp⟩ := main_groups_segment env lib d1 pairs1 1
      (tr ++ (main_initialise lib debug false tr).2) g1 k pair hk
    rw [hload]
    refine ⟨(main_initialise lib debug false tr).2 ++ pre,
      post ++ (main_groups env lib d2 1 pairs2 (tr ++ ((main_initialise lib debug false tr).2 ++
        (main_groups env lib d1 1 pairs1 (tr ++ (main_initialise lib debug false tr).2)).2))).2,
      ?_⟩
    simp only
    rw [hpp]
    have : (1 : Int) + (k : Int) = (k : Int) + 1 := by ring
    rw [this]
    simp only [List.append_assoc]
  · intro k pair hk
    obtain ⟨pre, post, hpp⟩ := main_groups_segment env lib d2 pairs2 1
      (tr ++ ((main_initialise lib debug false tr).2 ++
        (main_groups env lib d1 1 pairs1 (tr ++ (main_initialise lib debug false tr).2)).2))
      g2 k pair hk
    rw [hload]
    refine ⟨(main_initialise lib debug false tr).2 ++
      ((main_groups env lib d1 1 pairs1 (tr ++ (main_initialise lib debug false tr).2)).2 ++ pre),
      post, ?_⟩
    simp only
    rw [hpp]
    have : (1 : Int) + (k : Int) = (k : Int) + 1 := by ring
    rw [this]
    simp only [List.append_assoc]

/-- C11, witness: the stream of the printer document and the web document. -/
theorem C11_two_documents_witness :
    calls_of (main_load sample_env sample_lib true "mdnsserve.yaml"
      [some printer_document, some web_document] false []).2 =
      [.mdns_open, .mdns_set_group_hook,
        .mdns_group_add "printer",
        .mdns_group_add_service "printer" ⟨"printer", "ipp", "tcp", 631, "", none, none⟩,
        .mdns_group_commit "printer",
        .mdns_group_add "web",
        .mdns_group_add_service "web" ⟨"web", "http", "tcp", 80, "", none, none⟩,
        .mdns_group_commit "web"] :=
  (C11_two_documents sample_env sample_lib true "mdnsserve.yaml" printer_document web_document
    [⟨2, 3⟩] [⟨2, 3⟩] ⟨0, 0⟩ ⟨0, 0⟩ [] (by decide) (by decide) rfl rfl
    (fun _ => (show (0 : Int) ≠ -1 by decide))
    (fun _ _ => (show (0 : Int) ≠ -1 by decide))
    (fun _ _ => (show (0 : Int) ≠ -1 by decide))).2.1
/-- C14: for a group entry with a valid name and a sequence value in a well-formed
document, a failing `mdns_group_add` makes `add_group` end the process after that one
call, without any `mdns_group_add_service` or `mdns_group_commit` call; a failing
`mdns_group_commit` makes `add_group` end the process; `add_group` ends the process in
no other case; and `add_service` returns for every item of the sequence. -/
theorem C14_fatal_paths (env : Env) (lib : Lib) (index : Int) (document : yaml_document_t)
    (pair : yaml_node_pair_t) (tr : List Event) (group : String) (len : Nat)
    (kmark vmark : yaml_mark_t) (items : List Int)
    (hwf : document_wf document = true)
    (hkey : yaml_document_get_node document pair.key = some ⟨.scalar group len, kmark⟩)
    (hlen : 0 < len ∧ len < MAXHOSTNAMELEN)
    (hvalue : yaml_document_get_node document pair.value = some ⟨.sequence items, vmark⟩) :
    (lib.mdns_group_add tr group = -1 →
      add_group env lib index document pair tr =
        (.exited, [.call (.mdns_group_add group) (-1),
          .log .log_fatal "failed to add group '%s'" [.str group]])) ∧
    (lib.mdns_group_add tr group ≠ -1 →
      lib.mdns_group_commit
        (tr ++ .call (.mdns_group_add group) (lib.mdns_group_add tr group) ::
          (add_service_items env lib group document 1 items
            (tr ++ [.call (.mdns_group_add group) (lib.mdns_group_add tr group)])).2)
        group = -1 →
      (add_group env lib index document pair tr).1 = .exited) ∧
    ((add_group env lib index document pair tr).1 = .exited →
      lib.mdns_group_add tr group = -1 ∨
      lib.mdns_group_commit
        (tr ++ .call (.mdns_group_add group) (lib.mdns_group_add tr group) ::
          (add_service_items env lib group document 1 items
            (tr ++ [.call (.mdns_group_add group) (lib.mdns_group_add tr group)])).2)
        group = -1) ∧
    (∀ (i : Int) (item : Int) (t : List Event), item ∈ items →
      (add_service env lib group i document (yaml_document_get_node document item) t).1 =
        .returned) := by
  have hitems := document_wf_items document hwf pair.value vmark items hvalue
  obtain ⟨s1, _, _⟩ := add_service_items_events env lib group document items 1
    (tr ++ [.call (.mdns_group_add group) (lib.mdns_group_add tr group)]) hitems
  have h0 : len ≠ 0 := Nat.pos_iff_ne_zero.1 hlen.1
  have hl : ¬ MAXHOSTNAMELEN ≤ len := Nat.not_le.2 hlen.2
  refine ⟨?_, ?_, ?_, ?_⟩
  · intro hfail
    unfold add_group
    rw [hkey, hvalue]
    simp only [if_neg h0, if_neg hl, hfail, if_true]
  · intro hdef hcom
    unfold add_group
    rw [hkey, hvalue]
    simp only [if_neg h0, if_neg hl, if_neg hdef, s1, hcom, if_true]
  · intro hex
    by_contra hcon
    push_neg at hcon
    obtain ⟨hdef, hcom⟩ := hcon
    unfold add_group at hex
    rw [hkey, hvalue] at hex
    simp only [if_neg h0, if_neg hl, if_neg hdef, s1, if_neg hcom] at hex
    cases hex
  · intro i item t hitem
    obtain ⟨n, hn, hnwf⟩ := hitems item hitem
    rw [hn]
    exact (add_service_events env lib group i document n t hnwf).1

/-- C14, witness: when the library fails to define "printer", `add_group` ends the process
after the `mdns_group_add` call. -/
theorem C14_fatal_paths_witness :
    add_group sample_env failing_define_lib 1 printer_document ⟨2, 3⟩ [] =
      (.exited, [.call (.mdns_group_add "printer") (-1),
        .log .log_fatal "failed to add group '%s'" [.str "printer"]]) :=
  (C14_fatal_paths sample_env failing_define_lib 1 printer_document ⟨2, 3⟩ [] "printer" 7
    ⟨0, 0⟩ ⟨0, 11⟩ [4] (by decide) (by decide) (by decide) (by decide)).1 (by decide)

/-- C13 (amended): in the terminal loop of `main`, once the hook invocations of the call
have returned, a return value 0 of `mdns_read` ends the loop after a notice and the
process terminates cleanly, the return value -1 ends the process with a fatal diagnostic,
and every other return value, positive or negative, makes the loop call `mdns_read`
again. -/
theorem C13_read_loop (env : Env) (lib : Lib) (fuel : Nat) (tr : List Event)
    (hhooks : (run_hooks env (lib.mdns_read_events tr)).1 = .returned) :
    (lib.mdns_read tr = 0 →
      main_read env lib (fuel + 1) tr =
        some (.returned, (run_hooks env (lib.mdns_read_events tr)).2 ++
          [.call .mdns_read 0,
            .log .log_notice "socket closed by mdnsd, shutting down" []])) ∧
    (lib.mdns_read tr = -1 →
      main_read env lib (fuel + 1) tr =
        some (.exited, (run_hooks env (lib.mdns_read_events tr)).2 ++
          [.call .mdns_read (-1), .log .log_fatal "mdns_read failed" []])) ∧
    (lib.mdns_read tr ≠ 0 → lib.mdns_read tr ≠ -1 →
      main_read env lib (fuel + 1) tr =
        (main_read env lib fuel
          (tr ++ ((run_hooks env (lib.mdns_read_events tr)).2 ++
            [.call .mdns_read (lib.mdns_read tr)]))).map
          (fun r => (r.1, (run_hooks env (lib.mdns_read_events tr)).2 ++
            .call .mdns_read (lib.mdns_read tr) :: r.2))) := by
  refine ⟨?_, ?_, ?_⟩
  · intro h0
    rw [main_read]
    simp only [hhooks, h0]
    rfl
  · intro h1
    rw [main_read]
    simp only [hhooks, h1]
    rfl
  · intro h0 h1
    rw [main_read]
    simp only [hhooks, if_neg h0, if_neg h1]

/-- C13, witness: a library whose `mdns_read` returns 0 at once. -/
theorem C13_read_loop_witness :
    main_read sample_env sample_lib (0 + 1) [] =
      some (.returned, (run_hooks sample_env (sample_lib.mdns_read_events [])).2 ++
        [.call .mdns_read 0, .log .log_notice "socket closed by mdnsd, shutting down" []]) :=
  (C13_read_loop sample_env sample_lib 0 [] (by decide)).1 (by decide)

/-- C13, counterexample: `mdns_read` returns -2, a negative value, and the process does
not end: the loop calls `mdns_read` again, and ends cleanly when that call returns 0. -/
theorem C13_counterexample :
    minus_two_lib.mdns_read [] = -2 ∧
    main_read sample_env minus_two_lib 2 [] =
      some (.returned, [.call .mdns_read (-2), .call .mdns_read 0,
        .log .log_notice "socket closed by mdnsd, shutting down" []]) :=
  ⟨by decide, by decide⟩

/-- C12, the failing input: for a stream without any document the first loop of `main`
ends at once, `mdns_open` and `mdns_set_group_hook` are never called, and `main` still
enters the terminal loop and calls `mdns_read`. -/
theorem C12_empty_stream_never_opens :
    main_load sample_env sample_lib true "mdnsserve.yaml" [] false [] = (.returned, []) ∧
    main sample_env sample_lib sample_sys true "mdnsserve.yaml" [] 1 =
      some (.returned, [.call .mdns_read 0,
        .log .log_notice "socket closed by mdnsd, shutting down" []]) ∧
    (∀ fuel r, main sample_env sample_lib sample_sys true "mdnsserve.yaml" [] fuel = some r →
      Call.mdns_open ∉ calls_of r.2 ∧ Call.mdns_read ∈ calls_of r.2) := by
  refine ⟨by decide, by decide, ?_⟩
  intro fuel r hr
  cases fuel with
  | zero => simp [main, main_load, main_drop_privileges, main_read] at hr
  | succ n =>
    have : main sample_env sample_lib sample_sys true "mdnsserve.yaml" [] (n + 1) =
        some (.returned, [.call .mdns_read 0,
          .log .log_notice "socket closed by mdnsd, shutting down" []]) := by
      simp [main, main_load, main_drop_privileges, main_read, run_hooks, sample_lib]
    rw [this] at hr
    cases hr
    decide

end Mdnsserve
